import Mathlib

/-!
Shallow embedding of the in-memory relational-database emulator
(`backend/app/database.py`, `backend/app/main.py`, `backend/app/models.py`).

Rows are Python dicts mapping column names to scalars; we model scalars with
`Value` (integer, string, boolean, null) and dicts with insertion-ordered
association lists whose update (`rowSet`) mirrors Python dict assignment:
an existing key keeps its position, a new key is appended.

Python semantics that the source relies on are modelled explicitly:
`pyEq` is Python `==` on these scalars (`True == 1`, `None == None`),
`pyStr` is Python `str()`, `pyIntFloat` is `int(float(s))` — including the
exception classes it can raise, since `update_cell` catches only
`ValueError` — and `pyUpper`/`pyStrip` are `str.upper()` / `str.strip()`.
-/

set_option maxRecDepth 40000
set_option exponentiation.threshold 4000

namespace RDBMS

/-- Scalar cell values: Python int, str, bool, None as stored by the engine.
Python floats appear only in SUM/AVG aggregation output, which no claim
exercises; see `sumValue`. -/
inductive Value where
  | vInt : Int → Value
  | vStr : String → Value
  | vBool : Bool → Value
  | vNull : Value
deriving DecidableEq, Repr

open Value

/-- Python `==` on the modelled scalars: `True == 1`, `False == 0`,
`None == None`, strings only equal strings. -/
def pyEq : Value → Value → Bool
  | vInt a, vInt b => a == b
  | vStr a, vStr b => a == b
  | vBool a, vBool b => a == b
  | vNull, vNull => true
  | vBool a, vInt b => (if a then (1 : Int) else 0) == b
  | vInt a, vBool b => a == (if b then (1 : Int) else 0)
  | _, _ => false

/-- Python `str()` on the modelled scalars. -/
def pyStr : Value → String
  | vInt a => toString a
  | vStr s => s
  | vBool b => if b then "True" else "False"
  | vNull => "None"

/-- Is the scalar Python `None`? -/
def valIsNull : Value → Bool
  | vNull => true
  | _ => false

/-- Python `isinstance(v, (int, float))`: ints and bools (bool subclasses int)
viewed as rationals, used by numeric WHERE comparisons. -/
def valAsNum : Value → Option ℚ
  | vInt n => some (n : ℚ)
  | vBool b => some (if b then 1 else 0)
  | _ => none

/-- A row: a Python dict from column name to scalar, as an insertion-ordered
association list (keys unique, as in a dict). -/
abbrev Row := List (String × Value)

/-- Python `row.get(k)`: `none` when the key is absent. -/
def rowGet (r : Row) (k : String) : Option Value :=
  (List.find? (fun p => p.1 == k) r).map (fun p => p.2)

/-- `row.get(k)` collapsing an absent key and a stored `None` to `vNull`,
matching every `row.get(c) is None` test in the source. -/
def rowGetD (r : Row) (k : String) : Value :=
  (rowGet r k).getD vNull

/-- Python dict assignment `row[k] = v`: replace in place if the key exists
(keeping its position), otherwise append. -/
def rowSet (r : Row) (k : String) (v : Value) : Row :=
  if (List.find? (fun p => p.1 == k) r).isSome then
    List.map (fun p => if p.1 == k then (k, v) else p) r
  else
    r ++ [(k, v)]

/-- Python dict equality `r1 == r2`: same key set, values compared with
Python `==` (order-insensitive). Used by `in`/`not in` on row lists. -/
def rowEqPy (r1 r2 : Row) : Bool :=
  List.all r1 (fun p => match rowGet r2 p.1 with
    | some v => pyEq p.2 v
    | none => false) &&
  List.all r2 (fun p => match rowGet r1 p.1 with
    | some v => pyEq p.2 v
    | none => false)

/-- Python dict merge `{**r1, **r2}`: entries of `r2` assigned over `r1`. -/
def mergeRows (r1 r2 : Row) : Row :=
  List.foldl (fun acc p => rowSet acc p.1 p.2) r1 r2

/-! ### Python string-library helpers -/

/-- The whitespace characters stripped by Python `str.strip()` / matched by
regex `\s` (ASCII subset). -/
def pySpace (c : Char) : Bool :=
  c == ' ' || c == '\t' || c == '\n' || c == '\x0d' || c == '\x0b' || c == '\x0c'

/-- Strip, from both ends, every character satisfying `p` (Python
`str.strip(chars)` semantics). -/
def stripWhile (p : Char → Bool) (s : String) : String :=
  String.mk (((s.data.dropWhile p).reverse.dropWhile p).reverse)

/-- Python `str.strip()` (whitespace from both ends). -/
def pyStrip (s : String) : String := stripWhile pySpace s

/-- The characters of the Python strip set `"'\""` used on INSERT/UPDATE
values: single and double quotes. -/
def quoteChar (c : Char) : Bool := c == '\x27' || c == '"'

/-- Python `s.strip("'\"")`. -/
def stripQuotes (s : String) : String := stripWhile quoteChar s

/-- The characters of the Python strip set `"'`\""` used on WHERE condition
values: single quote, backtick, double quote. -/
def quoteTickChar (c : Char) : Bool :=
  c == '\x27' || c == Char.ofNat 96 || c == '"'

/-- Python `s.strip("'`\"")`. -/
def stripQuotesTick (s : String) : String := stripWhile quoteTickChar s

/-- Python `str.upper()` (ASCII). -/
def pyUpper (s : String) : String := String.mk (s.data.map Char.toUpper)

/-- Consume the literal character list `p` from the front of `s`; `some rest`
on success. -/
def charsStartWith : List Char → List Char → Option (List Char)
  | [], rest => some rest
  | _ :: _, [] => none
  | p :: ps, c :: cs => if p == c then charsStartWith ps cs else none

/-- Case-insensitive variant of `charsStartWith` (regex `re.IGNORECASE`). -/
def charsStartWithCI : List Char → List Char → Option (List Char)
  | [], rest => some rest
  | _ :: _, [] => none
  | p :: ps, c :: cs =>
      if p.toUpper == c.toUpper then charsStartWithCI ps cs else none

/-- Substring containment over char lists, for Python `needle in hay`. -/
def listContainsSub (needle : List Char) : List Char → Bool
  | [] => needle.isEmpty
  | c :: rest =>
      (charsStartWith needle (c :: rest)).isSome || listContainsSub needle rest

/-- Python `needle in hay` on strings. -/
def strContains (hay needle : String) : Bool :=
  listContainsSub needle.data hay.data

/-- Python `s.split(sep)` for a single-character separator. -/
def splitOnChar (sep : Char) (s : String) : List String :=
  let rec go : List Char → List Char → List String
    | acc, [] => [String.mk acc.reverse]
    | acc, c :: rest =>
        if c == sep then String.mk acc.reverse :: go [] rest
        else go (c :: acc) rest
  go [] s.data

/-- `name.split('.')[-1]`: the part after the last dot (used to strip
`table.column` qualifiers). -/
def lastDot (s : String) : String :=
  match (splitOnChar '.' s).getLast? with
  | some t => t
  | none => s

/-- Python `s.split(sep, 1)` for a single-character separator: split at the
first occurrence only; `none` when the separator is absent. -/
def splitFirstChar (sep : Char) (s : String) : Option (String × String) :=
  let rec go : List Char → List Char → Option (String × String)
    | _, [] => none
    | acc, c :: rest =>
        if c == sep then some (String.mk acc.reverse, String.mk rest)
        else go (c :: acc) rest
  go [] s.data

/-- A regex `\w` character: `[a-zA-Z0-9_]`. -/
def wordChar (c : Char) : Bool :=
  ('a' ≤ c && c ≤ 'z') || ('A' ≤ c && c ≤ 'Z') || ('0' ≤ c && c ≤ '9') || c == '_'

/-- A regex `[\w.]` character. -/
def wordDotChar (c : Char) : Bool := wordChar c || c == '.'

/-- Parse a run of decimal digits into a natural number; `none` if empty. -/
def parseDigits (cs : List Char) : Option (Nat × List Char) :=
  let ds := cs.takeWhile Char.isDigit
  if ds.isEmpty then none
  else some (ds.foldl (fun n c => 10 * n + (c.toNat - 48)) 0, cs.dropWhile Char.isDigit)

/-- The outcome of Python `int(float(s))`: the integer it returns, or the
class of the exception it raises. `ValueError` comes from an unparsable
literal (or from `int()` applied to NaN); `OverflowError` comes from
`int()` applied to an infinite float (an `inf` literal, or a finite
decimal whose correctly-rounded double overflows). -/
inductive PyNumResult where
  | ok : Int → PyNumResult
  | valueError : PyNumResult
  | overflowError : PyNumResult
deriving DecidableEq, Repr

/-- A digit run with Python numeric-literal underscores (each underscore
must sit between two digits): the accumulated value, the digit count, and
the remaining characters. `none` when the input does not start with a
digit. A trailing or doubled underscore is left in the remainder, failing
the caller's full-consumption check as in Python. -/
def digitRunU : List Char → Option (Nat × Nat × List Char)
  | c :: rest =>
      if c.isDigit then some (go (c.toNat - 48) 1 rest) else none
  | [] => none
where
  go (v k : Nat) : List Char → Nat × Nat × List Char
    | '_' :: c :: rest =>
        if c.isDigit then go (10 * v + (c.toNat - 48)) (k + 1) rest
        else (v, k, '_' :: c :: rest)
    | c :: rest =>
        if c.isDigit then go (10 * v + (c.toNat - 48)) (k + 1) rest
        else (v, k, c :: rest)
    | [] => (v, k, [])

/-- The value classes produced by Python `float(s)`: a finite value kept
exactly in the decimal form `sig · 10^decExp` as `finite sig digitsUB
decExp` (with `digitsUB` an upper bound on the decimal digit count of
`sig`, i.e. `sig < 10^digitsUB`, recorded from the parse), infinity, or
NaN. -/
inductive PyFloatLit where
  | finite : Nat → Nat → Int → PyFloatLit
  | infinite : PyFloatLit
  | nan : PyFloatLit
deriving DecidableEq, Repr

/-- Parse a Python `float(s)` string: surrounding whitespace stripped,
optional sign, then `inf`/`infinity`/`nan` (case-insensitive) or a decimal
mantissa with optional fraction and exponent, with numeric underscores.
Returns the sign and the exact value class; `none` when `float(s)` raises
`ValueError`. -/
def pyFloatLiteral (s : String) : Option (Bool × PyFloatLit) :=
  let cs := (s.data.dropWhile pySpace).reverse.dropWhile pySpace |>.reverse
  let (neg, cs) := match cs with
    | '-' :: rest => (true, rest)
    | '+' :: rest => (false, rest)
    | rest => (false, rest)
  let finishExp (iv ki fv fk : Nat) (rest : List Char) :
      Option (Bool × PyFloatLit) :=
    let sig := iv * 10 ^ fk + fv
    let digitsUB := ki + fk
    match rest with
    | [] => some (neg, .finite sig digitsUB (-(fk : Int)))
    | e :: r =>
        if e == 'e' || e == 'E' then
          let (eneg, r2) := match r with
            | '-' :: rr => (true, rr)
            | '+' :: rr => (false, rr)
            | rr => (false, rr)
          match digitRunU r2 with
          | some (ev, _, []) =>
              some (neg, .finite sig digitsUB
                ((if eneg then -(ev : Int) else (ev : Int)) - (fk : Int)))
          | _ => none
        else none
  match charsStartWithCI "INFINITY".data cs with
  | some [] => some (neg, .infinite)
  | _ =>
    match charsStartWithCI "INF".data cs with
    | some [] => some (neg, .infinite)
    | _ =>
      match charsStartWithCI "NAN".data cs with
      | some [] => some (neg, .nan)
      | _ =>
          match digitRunU cs with
          | some (iv, ki, rest1) =>
              match rest1 with
              | '.' :: r =>
                  (match digitRunU r with
                    | some (fv, fk, r2) => finishExp iv ki fv fk r2
                    | none => finishExp iv ki 0 0 r)
              | r => finishExp iv ki 0 0 r
          | none =>
              match cs with
              | '.' :: r =>
                  (match digitRunU r with
                    | some (fv, fk, r2) => finishExp 0 0 fv fk r2
                    | none => none)
              | _ => none

/-- Bit length of a natural number (0 for 0), by explicit fuel so that it
reduces structurally; exact whenever `fuel` is at least the bit length. -/
def bitLen : Nat → Nat → Nat
  | 0, _ => 0
  | f + 1, n => if n = 0 then 0 else bitLen f (n / 2) + 1

/-- Whether `2^a ≤ N / D` for naturals `N, D > 0` and an integer exponent
`a`, decided exactly by cross-multiplication. -/
def le_pow2 (N D : Nat) (a : Int) : Bool :=
  if 0 ≤ a then decide (D * 2 ^ a.toNat ≤ N) else decide (D ≤ N * 2 ^ (-a).toNat)

/-- Round the positive rational `(N / D) / 2^scaleExp` to a natural
number, half to even, by exact integer division. -/
def pyRoundM (N D : Nat) (scaleExp : Int) : Nat :=
  let A := if 0 ≤ scaleExp then N else N * 2 ^ (-scaleExp).toNat
  let B := if 0 ≤ scaleExp then D * 2 ^ scaleExp.toNat else D
  let m0 := A / B
  let r := A % B
  if B < 2 * r then m0 + 1
  else if 2 * r < B then m0
  else if m0 % 2 = 0 then m0 else m0 + 1

/-- Python `int(float(·))` on the nonnegative exact decimal
`sig · 10^decExp` (with `sig < 10^digitsUB`): round it to the nearest
IEEE-754 binary64 value (round half to even, subnormals included —
CPython's `float()` is correctly rounded) and truncate toward zero, or
report the overflow to infinity that makes `int()` raise `OverflowError`.
A decimal exponent of 309 or more guarantees overflow and a decimal
magnitude bound of `-324` or less guarantees rounding to `0.0`, so the
clamps short-cut exactly. -/
def pyIntFloatCore (sig digitsUB : Nat) (decExp : Int) : PyNumResult :=
  if sig = 0 then .ok 0
  else if 309 ≤ decExp then .overflowError
  else if (digitsUB : Int) + decExp ≤ -324 then .ok 0
  else
    let N := if 0 ≤ decExp then sig * 10 ^ decExp.toNat else sig
    let D := if 0 ≤ decExp then 1 else 10 ^ (-decExp).toNat
    let fuel := 4 * digitsUB + 1400
    let a : Int := (bitLen fuel N : Int) - (bitLen fuel D : Int)
    let e : Int := if le_pow2 N D a then a else a - 1
    let scaleExp : Int := if e < -1022 then -1074 else e - 52
    let m := pyRoundM N D scaleExp
    if 2 ^ (1024 - scaleExp).toNat ≤ m then .overflowError
    else .ok (if 0 ≤ scaleExp then ((m * 2 ^ scaleExp.toNat : Nat) : Int)
              else ((m / 2 ^ (-scaleExp).toNat : Nat) : Int))

/-- Python `int(float(s))`: parse the float literal, round it to the
nearest double, and truncate toward zero — or report the exception class
(`ValueError` for an unparsable literal or NaN, `OverflowError` for an
infinite result, which `except ValueError` handlers do **not** catch). -/
def pyIntFloat (s : String) : PyNumResult :=
  match pyFloatLiteral s with
  | none => .valueError
  | some (_, .nan) => .valueError
  | some (_, .infinite) => .overflowError
  | some (neg, .finite sig digitsUB decExp) =>
      match pyIntFloatCore sig digitsUB decExp with
      | .ok v => .ok (if neg then -v else v)
      | r => r

/-- Python `float(s)` on plain decimal literals, as an exact rational
(`none` when `float(s)` would raise). Used only for the WHERE/HAVING
numeric comparisons, which compare against small literal constants; the
exotic literal forms and double rounding that `pyIntFloat` models are
immaterial there and left out. -/
def pyParseFloat (s : String) : Option ℚ :=
  let cs := (s.data.dropWhile pySpace).reverse.dropWhile pySpace |>.reverse
  let (neg, cs) := match cs with
    | '-' :: rest => (true, rest)
    | '+' :: rest => (false, rest)
    | rest => (false, rest)
  let intDigits := cs.takeWhile Char.isDigit
  let afterInt := cs.dropWhile Char.isDigit
  let intPart : Nat := intDigits.foldl (fun n c => 10 * n + (c.toNat - 48)) 0
  match afterInt with
  | [] =>
      if intDigits.isEmpty then none
      else some (if neg then -(intPart : ℚ) else (intPart : ℚ))
  | '.' :: fracRest =>
      let fracDigits := fracRest.takeWhile Char.isDigit
      let afterFrac := fracRest.dropWhile Char.isDigit
      let fracPart : Nat := fracDigits.foldl (fun n c => 10 * n + (c.toNat - 48)) 0
      let q : ℚ := (intPart : ℚ) + (fracPart : ℚ) / ((10 : ℚ) ^ fracDigits.length)
      if afterFrac.isEmpty && !(intDigits.isEmpty && fracDigits.isEmpty) then
        some (if neg then -q else q)
      else none
  | _ => none

/-! ### Schema model (`models.py`) -/

/-- `ColumnSchema` of `models.py`. Column types are the literal strings of
`DataType`. Pydantic optional booleans (`isUnique`, `isForeignKey`,
`autoIncrement`) default to `None`, which every use reads through
`getattr(col, ..., False)` or truthiness, so they are modelled as `Bool`
with default `false`. `defaultValue` is the stored default scalar or
absent. `references` is the `{tableId, columnId}` pair. -/
structure ColumnSchema where
  id : String
  name : String
  type : String
  length : Option Nat := none
  nullable : Bool := true
  defaultValue : Option Value := none
  isPrimaryKey : Bool := false
  isUnique : Bool := false
  isForeignKey : Bool := false
  autoIncrement : Bool := false
  references : Option (String × String) := none
deriving DecidableEq, Repr

/-- `TableSchema` of `models.py` (indexes are descriptive metadata never
consulted by any operator, and are omitted). -/
structure TableSchema where
  id : String
  name : String
  columns : List ColumnSchema
  rows : List Row
deriving DecidableEq, Repr

/-! ### Scan with default back-fill (`_handle_select`, rows loop) -/

/-- One back-fill step of the scan loop body: for a declared column absent
from the row (`col.name not in new_row`), fill the default value if set,
else `None` if the column is nullable (a non-nullable column with no
default stays absent). -/
def backfillStep (acc : Row) (col : ColumnSchema) : Row :=
  if (rowGet acc col.name).isSome then acc
  else match col.defaultValue with
    | some dv => rowSet acc col.name dv
    | none => if col.nullable then rowSet acc col.name vNull else acc

/-- Defensive copy of a row back-filled with defaults/null for declared
columns absent from storage (`_handle_select` scan loop). -/
def backfillRow (cols : List ColumnSchema) (r : Row) : Row :=
  List.foldl backfillStep r cols

/-- The scan operator: every stored row, back-filled. -/
def scanRows (t : TableSchema) : List Row :=
  t.rows.map (backfillRow t.columns)

/-! ### Constraint enforcer (`_check_integrity_constraints`) -/

/-- NOT NULL phase: every non-nullable column must be non-null, except an
unset auto-increment column during INSERT. -/
def checkNotNullCols (newRow : Row) (isInsert : Bool) :
    List ColumnSchema → Except String Unit
  | [] => .ok ()
  | c :: rest =>
      if isInsert && c.autoIncrement && valIsNull (rowGetD newRow c.name) then
        checkNotNullCols newRow isInsert rest
      else if !c.nullable && valIsNull (rowGetD newRow c.name) then
        .error ("Column " ++ c.name ++ " cannot be NULL")
      else checkNotNullCols newRow isInsert rest

/-- UNIQUE phase: a non-null value in a primary-key or unique column must not
equal (Python `==`) any existing row value in that column. -/
def checkUniqueCols (rows : List Row) (newRow : Row) :
    List ColumnSchema → Except String Unit
  | [] => .ok ()
  | c :: rest =>
      if c.isPrimaryKey || c.isUnique then
        let v := rowGetD newRow c.name
        if !valIsNull v then
          if rows.any (fun r => pyEq (rowGetD r c.name) v) then
            .error ("Duplicate entry for key " ++ c.name)
          else checkUniqueCols rows newRow rest
        else checkUniqueCols rows newRow rest
      else checkUniqueCols rows newRow rest

/-- FOREIGN KEY phase: a non-null foreign-key value must equal some value of
the referenced column in the referenced table; a missing referenced table is
silently skipped (source: `if ref_table:`). -/
def checkForeignKeyCols (db : List TableSchema) (newRow : Row) :
    List ColumnSchema → Except String Unit
  | [] => .ok ()
  | c :: rest =>
      match c.references with
      | some (refTable, refCol) =>
          if c.isForeignKey then
            let v := rowGetD newRow c.name
            if !valIsNull v then
              match db.find? (fun t => t.name == refTable) with
              | some rt =>
                  if rt.rows.any (fun r => pyEq (rowGetD r refCol) v) then
                    checkForeignKeyCols db newRow rest
                  else .error ("Foreign key constraint fails for column " ++ c.name)
              | none => checkForeignKeyCols db newRow rest
            else checkForeignKeyCols db newRow rest
          else checkForeignKeyCols db newRow rest
      | none => checkForeignKeyCols db newRow rest

/-- `_check_integrity_constraints`: NOT NULL, then UNIQUE, then FOREIGN KEY,
aborting at the first violation. -/
def checkIntegrityConstraints (db : List TableSchema) (table : TableSchema)
    (newRow : Row) (isInsert : Bool) : Except String Unit := do
  checkNotNullCols newRow isInsert table.columns
  checkUniqueCols table.rows newRow table.columns
  checkForeignKeyCols db newRow table.columns

/-! ### INSERT (`_handle_insert`) -/

/-- Type coercion of one raw INSERT value token for a named column
(`_handle_insert` values loop): strip whitespace then quotes, map `NULL` to
null, coerce INT/DECIMAL via `int(float(val))` falling back to the raw
string on any exception (the bare except catches `ValueError` and
`OverflowError` alike), map BOOLEAN via `val.upper() in ['TRUE','1','YES']`,
store everything else (TIMESTAMP included) as the text. -/
def insertCoerceToken (table : TableSchema) (colName rawTok : String) : Value :=
  let val := stripQuotes (pyStrip rawTok)
  if pyUpper val == "NULL" then vNull
  else match table.columns.find? (fun c => c.name == colName) with
    | some c =>
        if c.type == "INT" || c.type == "DECIMAL" then
          match pyIntFloat val with
          | .ok n => vInt n
          | _ => vStr val
        else if c.type == "BOOLEAN" then
          vBool (pyUpper val == "TRUE" || pyUpper val == "1" || pyUpper val == "YES")
        else vStr val
    | none => vStr val

/-- Build the candidate row from the column list and one value tuple
(Python `zip` truncates to the shorter list). -/
def buildInsertRow (table : TableSchema) (cols : List String)
    (toks : List String) : Row :=
  (List.zip cols toks).foldl
    (fun r p => rowSet r p.1 (insertCoerceToken table p.1 p.2)) []

/-- Auto-increment fill: when the table has an auto-increment column absent
from the candidate row, assign max existing non-null value + 1 (default 1
when none exist). Python `max` raises `TypeError` on non-integer values;
that failure is surfaced as an error. -/
def autoIncFill (table : TableSchema) (row : Row) : Except String Row :=
  match table.columns.find? (fun c => c.autoIncrement) with
  | none => .ok row
  | some c =>
      if (rowGet row c.name).isSome then .ok row
      else
        let vals := table.rows.filterMap (fun r =>
          match rowGet r c.name with
          | some v => if valIsNull v then none else some v
          | none => none)
        let ints := vals.filterMap (fun v => match v with
          | vInt n => some n
          | _ => none)
        if ints.length == vals.length then
          let m : Int := match ints with
            | [] => 0
            | x :: xs => xs.foldl max x
          .ok (rowSet row c.name (vInt (m + 1)))
        else .error "TypeError in auto-increment max"

/-- Default back-fill for columns not specified in the INSERT: fill the
default if set, null if nullable, otherwise reject the row. -/
def applyInsertDefaults (row : Row) : List ColumnSchema → Except String Row
  | [] => .ok row
  | c :: rest =>
      if (rowGet row c.name).isSome then applyInsertDefaults row rest
      else match c.defaultValue with
        | some dv => applyInsertDefaults (rowSet row c.name dv) rest
        | none =>
            if c.nullable then applyInsertDefaults (rowSet row c.name vNull) rest
            else .error ("Column " ++ c.name ++ " cannot be NULL")

/-- Replace the processed table inside the database list; Python mutates the
shared table object, so the registry always sees the current rows. -/
def dbWithTable (db : List TableSchema) (t : TableSchema) : List TableSchema :=
  db.map (fun x => if x.name == t.name then t else x)

/-- The `_handle_insert` tuples loop: coerce, auto-increment, default-fill,
constraint-check and append each candidate row in turn. On the first
failure the error propagates out of the handler, but rows already appended
to the (mutated in place) table remain: the result carries the partially
extended table, the number of rows inserted, and the error if any. -/
def insertRowsAux (db : List TableSchema) (cols : List String) :
    TableSchema → Nat → List (List String) → TableSchema × Nat × Option String
  | t, n, [] => (t, n, none)
  | t, n, toks :: rest =>
      let r0 := buildInsertRow t cols toks
      match autoIncFill t r0 with
      | .error m => (t, n, some m)
      | .ok r1 =>
          match applyInsertDefaults r1 t.columns with
          | .error m => (t, n, some m)
          | .ok r2 =>
              match checkIntegrityConstraints (dbWithTable db t) t r2 true with
              | .error m => (t, n, some m)
              | .ok _ =>
                  insertRowsAux db cols
                    { t with rows := t.rows ++ [r2] } (n + 1) rest

/-- `_handle_insert` after statement parsing: process every value tuple.
Returns the final table state, the inserted-row count, and the error
message of the aborting exception when a tuple was rejected. -/
def insertRows (db : List TableSchema) (t : TableSchema) (cols : List String)
    (tuples : List (List String)) : TableSchema × Nat × Option String :=
  insertRowsAux db cols t 0 tuples

/-! ### UPDATE (`_handle_update`) -/

/-- Parse one `col = val` part of the SET clause: split at the first `=`,
strip, verify the column exists, coerce `NULL` and INT/DECIMAL values. -/
def parseSetPart (table : TableSchema) (part : String) :
    Except String (String × Value) :=
  match splitFirstChar '=' part with
  | none => .error ("Invalid SET clause: " ++ part)
  | some (colRaw, valRaw) =>
      let col := pyStrip colRaw
      let val := stripQuotes (pyStrip valRaw)
      if !table.columns.any (fun c => c.name == col) then
        .error ("Column " ++ col ++ " not found in table " ++ table.name)
      else if pyUpper val == "NULL" then .ok (col, vNull)
      else match table.columns.find? (fun c => c.name == col) with
        | some c =>
            if c.type == "INT" || c.type == "DECIMAL" then
              .ok (col, match pyIntFloat val with
                | .ok n => vInt n
                | _ => vStr val)
            else .ok (col, vStr val)
        | none => .ok (col, vStr val)

/-- Fold the SET parts into the `updates` dict, stopping at the first
malformed part or unknown column. -/
def parseSetClause (table : TableSchema) (setClause : String) :
    Except String Row :=
  ((splitOnChar ',' setClause).map pyStrip).foldlM
    (fun (acc : Row) p => do
      let cv ← parseSetPart table p
      pure (rowSet acc cv.1 cv.2))
    ([] : Row)

/-- The UPDATE WHERE regex `(\w+)\s*=\s*([^;\s]+)`: leftmost word, `=`,
value token. -/
def parseWhereEq (s : String) : Option (String × String) :=
  let rec tryAt (cs : List Char) : Option (String × String) :=
    let wcs := cs.takeWhile wordChar
    if wcs.isEmpty then none
    else
      let rest := (cs.dropWhile wordChar).dropWhile pySpace
      match rest with
      | '=' :: rest2 =>
          let rest3 := rest2.dropWhile pySpace
          let vcs := rest3.takeWhile (fun c => !(pySpace c) && c != ';')
          if vcs.isEmpty then none
          else some (String.mk wcs, String.mk vcs)
      | _ => none
  let rec scan : List Char → Option (String × String)
    | [] => none
    | c :: rest =>
        match tryAt (c :: rest) with
        | some r => some r
        | none => scan rest
  scan s.data

/-- `_handle_update` after statement parsing: build the updates dict from
the SET clause, coerce and match the optional single-equality WHERE
(stringified comparison, missing column reads as the empty string), and
assign every update into each matching row. No constraint enforcement. -/
def handleUpdate (table : TableSchema) (setClause : String)
    (whereOpt : Option String) : Except String (TableSchema × Nat) := do
  let updates ← parseSetClause table setClause
  let matchRowE : Except String (Row → Bool) :=
    match whereOpt with
    | none => .ok (fun _ => true)
    | some w =>
        match parseWhereEq w with
        | none => .error "Unsupported WHERE clause in UPDATE"
        | some (wc, wvRaw) =>
            let wv0 := stripQuotes wvRaw
            let wv : Value :=
              match table.columns.find? (fun c => c.name == wc) with
              | some c =>
                  if c.type == "INT" || c.type == "DECIMAL" then
                    match pyIntFloat wv0 with
                    | .ok n => vInt n
                    | _ => vStr wv0
                  else vStr wv0
              | none => vStr wv0
            .ok (fun r => ((rowGet r wc).map pyStr).getD "" == pyStr wv)
  match matchRowE with
  | .error m => .error m
  | .ok matchRow =>
      let newRows := table.rows.map (fun r =>
        if matchRow r then updates.foldl (fun acc p => rowSet acc p.1 p.2) r else r)
      let count := (table.rows.filter matchRow).length
      pure ({ table with rows := newRows }, count)

/-! ### ALTER TABLE ADD COLUMN (`_handle_alter_table`) -/

/-- `_handle_alter_table` after parsing the column definition: reject a
duplicate column name, append the new column, and back-fill **every**
existing row with the parsed default value — which is Python `None` when
the definition carries no DEFAULT, even for a NOT NULL column. No
constraint validation runs. -/
def alterAddColumn (t : TableSchema) (colName colType : String)
    (lengthOpt : Option Nat) (nullable isPK : Bool) (defaultV : Option Value) :
    Except String TableSchema :=
  if t.columns.any (fun c => c.name == colName) then
    .error ("Column " ++ colName ++ " already exists in table " ++ t.name)
  else
    let newCol : ColumnSchema :=
      { id := t.name ++ "_" ++ colName, name := colName, type := colType,
        length := lengthOpt, nullable := nullable, isPrimaryKey := isPK,
        defaultValue := defaultV }
    .ok { t with
      columns := t.columns ++ [newCol],
      rows := t.rows.map (fun r => rowSet r colName (defaultV.getD vNull)) }

/-! ### Cell update endpoint (`main.py`, `update_cell`) -/

/-- The distinct failure modes of the cell-update endpoint: the explicit
400 for `row_index >= len(rows)`, the unhandled Python `OverflowError`
(an HTTP 500) when `int(float(value))` meets an infinite float — the
handler catches only `ValueError` — and the unhandled Python `IndexError`
(also a 500) when a negative index reaches below `-len(rows)`. -/
inductive CellUpdateError where
  | rowIndexOutOfBounds
  | pyOverflowError
  | pyIndexError
deriving DecidableEq, Repr

/-- Cell value coercion in `update_cell`: only INT/DECIMAL columns are
converted, via `int(float(value))` with `except ValueError` falling back
to the raw string; an `OverflowError` (an infinite float, e.g. value
`inf` or `1e400`) is **not** caught and escapes the endpoint — modelled
as `none`. Every other type stores the raw text unchanged (no NULL
handling, no boolean mapping, no quote stripping). -/
def cellCoerceValue (table : TableSchema) (column value : String) :
    Option Value :=
  match table.columns.find? (fun c => c.name == column) with
  | some c =>
      if c.type == "INT" || c.type == "DECIMAL" then
        match pyIntFloat value with
        | .ok n => some (vInt n)
        | .valueError => some (vStr value)
        | .overflowError => none
      else some (vStr value)
  | none => some (vStr value)

/-- `update_cell` (`main.py`): reject `row_index >= len(rows)` with the 400
out-of-bounds failure; then coerce the value — an uncaught `OverflowError`
escapes here, before any assignment — then assign
`table.rows[row_index][column] = value` with Python list indexing, so a
negative index counts from the end and an index below `-len(rows)` raises
`IndexError`. No constraint checking. -/
def updateCell (t : TableSchema) (rowIndex : Int) (column value : String) :
    Except CellUpdateError TableSchema :=
  if (t.rows.length : Int) ≤ rowIndex then .error .rowIndexOutOfBounds
  else
    match cellCoerceValue t column value with
    | none => .error .pyOverflowError
    | some v =>
        let idx : Int :=
          if rowIndex < 0 then (t.rows.length : Int) + rowIndex else rowIndex
        if idx < 0 then .error .pyIndexError
        else match t.rows.get? idx.toNat with
          | none => .error .pyIndexError
          | some r =>
              .ok { t with rows := t.rows.set idx.toNat (rowSet r column v) }

/-! ### JOIN (`_handle_select`, join block)

Join matching compares `str(row1[left_col]) == str(row2[right_col])`;
Python `dict[...]` raises `KeyError` when a key is absent, so the match
computation is `Option`-valued: `none` models the escaping `KeyError`
(which `execute_sql` turns into a failed result). -/

/-- All right-table rows matching a left row by stringified equality, each
merged over the left row (`{**row1, **row2}`); `none` on `KeyError`.
With an empty right-row list the left value is never read, as in the
Python inner loop. -/
def joinMatches (r1 : Row) (lc rc : String) : List Row → Option (List Row)
  | [] => some []
  | r2 :: rest => do
      let v1 ← rowGet r1 lc
      let v2 ← rowGet r2 rc
      let restM ← joinMatches r1 lc rc rest
      pure (if pyStr v1 == pyStr v2 then mergeRows r1 r2 :: restM else restM)

/-- An unmatched left row in a LEFT JOIN: the left row with every
right-table column assigned null (in declaration order, clobbering a
colliding left column). -/
def nullFillRow (r1 : Row) (rightCols : List String) : Row :=
  rightCols.foldl (fun acc c => rowSet acc c vNull) r1

/-- The LEFT JOIN loop: every left row contributes its merged matches, or a
single null-filled row when it matches nothing. -/
def leftJoinRows : List Row → List Row → String → String → List String →
    Option (List Row)
  | [], _, _, _, _ => some []
  | r1 :: rest, right, lc, rc, rightCols => do
      let ms ← joinMatches r1 lc rc right
      let restJ ← leftJoinRows rest right lc rc rightCols
      pure ((if ms.isEmpty then [nullFillRow r1 rightCols] else ms) ++ restJ)

/-- The INNER JOIN loop: every left row contributes exactly its merged
matches. -/
def innerJoinRows : List Row → List Row → String → String → Option (List Row)
  | [], _, _, _ => some []
  | r1 :: rest, right, lc, rc => do
      let ms ← joinMatches r1 lc rc right
      let restJ ← innerJoinRows rest right lc rc
      pure (ms ++ restJ)

/-! ### WHERE filtering (`_filter_by_condition`, `_apply_where_clause`) -/

/-- The atomic-condition regex `([\w.]+)\s*([=<>]+|LIKE)\s*([^;\s]+)`:
leftmost match, greedy groups, operator uppercased, value stripped of
`'`, backtick and `"`. -/
def parseCondition (condition : String) : Option (String × String × String) :=
  let tryAt (cs : List Char) : Option (String × String × String) :=
    let colCs := cs.takeWhile wordDotChar
    if colCs.isEmpty then none
    else
      let rest := (cs.dropWhile wordDotChar).dropWhile pySpace
      let opCs := rest.takeWhile (fun c => c == '=' || c == '<' || c == '>')
      let opResult : Option (List Char × List Char) :=
        if !opCs.isEmpty then
          some (opCs, rest.dropWhile (fun c => c == '=' || c == '<' || c == '>'))
        else match charsStartWithCI "LIKE".data rest with
          | some rest2 => some ("LIKE".data, rest2)
          | none => none
      match opResult with
      | none => none
      | some (op, rest2) =>
          let rest3 := rest2.dropWhile pySpace
          let valCs := rest3.takeWhile (fun c => !(pySpace c) && c != ';')
          if valCs.isEmpty then none
          else some (String.mk colCs, pyUpper (String.mk op),
                     stripQuotesTick (String.mk valCs))
  let rec scan : List Char → Option (String × String × String)
    | [] => none
    | c :: rest =>
        match tryAt (c :: rest) with
        | some r => some r
        | none => scan rest
  scan s.data
where s := condition

/-- Does one row pass the parsed atomic condition? A null or missing value
is rejected before any operator runs; `=` compares stringified values, `>`
and `<` require an int/bool row value and a float-parsable literal, `LIKE`
is substring containment, and any other operator run (for example `>=`)
matches nothing. -/
def condKeep (colName op val : String) (row : Row) : Bool :=
  match rowGet row (lastDot colName) with
  | none => false
  | some v =>
      if valIsNull v then false
      else if op == "=" then pyStr v == val
      else if op == ">" then
        match valAsNum v, pyParseFloat val with
        | some a, some b => decide (b < a)
        | _, _ => false
      else if op == "<" then
        match valAsNum v, pyParseFloat val with
        | some a, some b => decide (a < b)
        | _, _ => false
      else if op == "LIKE" then strContains (pyStr v) val
      else false

/-- The `_filter_by_condition` row loop over a parsed condition. -/
def filterRows (data : List Row) (colName op val : String) : List Row :=
  match data with
  | [] => []
  | row :: rest =>
      if condKeep colName op val row then
        row :: filterRows rest colName op val
      else filterRows rest colName op val

/-- `_filter_by_condition`: parse the condition text; an unparsable
condition returns the data unchanged. -/
def filterByCondition (data : List Row) (condition : String) : List Row :=
  match parseCondition condition with
  | none => data
  | some (c, op, v) => filterRows data c op v

/-- One connective occurrence for `re.split(r'\s+(AND|OR)\s+', ...)`:
whitespace, `AND`/`OR` (case-insensitive, returned as matched), whitespace. -/
def tryConnectiveAt (cs : List Char) : Option (String × List Char) :=
  let ws := cs.takeWhile pySpace
  if ws.isEmpty then none
  else
    let rest := cs.dropWhile pySpace
    let andOr : Option (String × List Char) :=
      match charsStartWithCI "AND".data rest with
      | some r2 => some (String.mk (rest.take 3), r2)
      | none =>
          match charsStartWithCI "OR".data rest with
          | some r2 => some (String.mk (rest.take 2), r2)
          | none => none
    match andOr with
    | none => none
    | some (conn, r2) =>
        let ws2 := r2.takeWhile pySpace
        if ws2.isEmpty then none else some (conn, r2.dropWhile pySpace)

/-- `re.split(r'\s+(AND|OR)\s+', clause)` with the captured connectives
kept in the token list. -/
def splitAndOr (s : String) : List String :=
  let rec go (fuel : Nat) (acc : List Char) (cs : List Char) : List String :=
    match fuel with
    | 0 => [String.mk acc.reverse ++ String.mk cs]
    | fuel + 1 =>
        match cs with
        | [] => [String.mk acc.reverse]
        | c :: rest =>
            match tryConnectiveAt (c :: rest) with
            | some (conn, after) =>
                String.mk acc.reverse :: conn :: go fuel [] after
            | none => go fuel (c :: acc) rest
  go s.data.length [] s.data

/-- The `_apply_where_clause` token walk building the conditions list
(connectives uppercased; a connective with an empty current condition is
dropped, and the current condition is **not** reset after being emitted). -/
def buildConds : List String → String → List String
  | [], cur => if cur != "" then [pyStrip cur] else []
  | t :: rest, cur =>
      if pyUpper t == "AND" || pyUpper t == "OR" then
        if cur != "" then pyStrip cur :: pyUpper t :: buildConds rest cur
        else buildConds rest cur
      else buildConds rest t

/-- `_filter_by_condition` over position-tagged rows. The row dicts are
shared objects between `data` and every intermediate `result`, so a row's
position in `data` is its Python object identity; the filter itself reads
only the row content. -/
def filterByConditionT (data : List (Nat × Row)) (condition : String) :
    List (Nat × Row) :=
  match parseCondition condition with
  | none => data
  | some (c, op, v) => data.filter (fun p => condKeep c op v p.2)

/-- The compound while loop of `_apply_where_clause`. The three-token
branch fires while at least three tokens remain (`i + 2 < len(conditions)`
asks exactly that `conditions[i+2]` exist), consuming condition,
connective and condition; a lone trailing token falls to the sequential
branch. The AND branch intersects by Python object identity
(`id(row) in left_ids`), here the position tag; the OR branch deduplicates
by list membership, which is dict `==`, here `rowEqPy` on the row
content. -/
def applyCompound (data : List (Nat × Row)) :
    List (Nat × Row) → List String → List (Nat × Row)
  | result, [] => result
  | result, c1 :: c2 :: c3 :: rest3 =>
      if c2 == "AND" || c2 == "OR" then
        let leftR := filterByConditionT result c1
        let rightR := filterByConditionT data c3
        let result2 :=
          if c2 == "AND" then
            rightR.filter (fun r => leftR.any (fun l => l.1 == r.1))
          else
            leftR ++ rightR.filter
              (fun r => !leftR.any (fun l => rowEqPy l.2 r.2))
        applyCompound data result2 rest3
      else applyCompound data (filterByConditionT result c1) (c2 :: c3 :: rest3)
  | result, c1 :: rest1 =>
      applyCompound data (filterByConditionT result c1) rest1

/-- `_apply_where_clause`: tokenize on AND/OR; a single condition goes
straight to `_filter_by_condition`, otherwise the compound walk runs over
the identity-tagged rows and the surviving row dicts are returned. -/
def applyWhereClause (data : List Row) (whereClause : String) : List Row :=
  let conds := buildConds (splitAndOr whereClause) ""
  match conds with
  | [c] => filterByCondition data c
  | _ => (applyCompound data.enum data.enum conds).map (fun p => p.2)

/-! ### GROUP BY (`_handle_group_by`) -/

/-- Append a row to its group, keyed by Python `==` on the grouped value
(`row.get(group_col)`; an absent column and a stored null are the same
`None` key); a new key appends a new group, preserving dict insertion
order. -/
def addToGroups (gs : List (Value × List Row)) (k : Value) (r : Row) :
    List (Value × List Row) :=
  if gs.any (fun p => pyEq p.1 k) then
    gs.map (fun p => if pyEq p.1 k then (p.1, p.2 ++ [r]) else p)
  else gs ++ [(k, [r])]

/-- `_handle_group_by`: group rows by the column value, then return the
first row of each group in key first-appearance order; no aggregation. -/
def handleGroupBy (data : List Row) (groupCol : String) : List Row :=
  if data.isEmpty then data
  else
    let groups := data.foldl
      (fun gs r => addToGroups gs (rowGetD r groupCol) r) []
    groups.filterMap (fun p => p.2.head?)

/-! ### Aggregation (`_handle_aggregation`) -/

/-- Match the regex `COUNT\s*\(\s*\*\s*\)` at the head of a char list. -/
def countStarAt (cs : List Char) : Bool :=
  match charsStartWithCI "COUNT".data cs with
  | none => false
  | some r1 =>
      match r1.dropWhile pySpace with
      | '(' :: r2 =>
          match r2.dropWhile pySpace with
          | '*' :: r3 =>
              match r3.dropWhile pySpace with
              | ')' :: _ => true
              | _ => false
          | _ => false
      | _ => false

/-- `re.search(r'COUNT\s*\(\s*\*\s*\)', s, re.IGNORECASE)` as a Boolean. -/
def hasCountStar (s : String) : Bool :=
  let rec scan : List Char → Bool
    | [] => false
    | c :: rest => countStarAt (c :: rest) || scan rest
  scan s.data

/-- Match `FNAME\s*\(\s*(\w+)\s*\)` at the head of a char list, returning
the captured column and the remainder after the match. -/
def aggCallAt (fname : List Char) (cs : List Char) : Option (String × List Char) :=
  match charsStartWithCI fname cs with
  | none => none
  | some r1 =>
      match r1.dropWhile pySpace with
      | '(' :: r2 =>
          let r3 := r2.dropWhile pySpace
          let colCs := r3.takeWhile wordChar
          if colCs.isEmpty then none
          else
            match (r3.dropWhile wordChar).dropWhile pySpace with
            | ')' :: after => some (String.mk colCs, after)
            | _ => none
      | _ => none

/-- `re.findall(FNAME\s*\(\s*(\w+)\s*\), s, re.IGNORECASE)`: every
non-overlapping occurrence, left to right. -/
def findAggCalls (fname : String) (s : String) : List String :=
  let rec go (fuel : Nat) (cs : List Char) : List String :=
    match fuel with
    | 0 => []
    | fuel + 1 =>
        match cs with
        | [] => []
        | c :: rest =>
            match aggCallAt fname.data (c :: rest) with
            | some (col, after) => col :: go fuel after
            | none => go fuel rest
  go s.data.length s.data

/-- The numeric filter `str(v).replace('.', '').isdigit()` applied to an
aggregated value. -/
def digitCheck (v : Value) : Bool :=
  let cs := (pyStr v).data.filter (fun c => c != '.')
  !cs.isEmpty && cs.all Char.isDigit

/-- `SUM(col)`: sum of the float-parsed values passing `digitCheck`
(0 when none, or when any passing value still fails `float` — the `except`
branch). Python sums floats; the exact rational total is stored as an
integer when whole and as its decimal text otherwise (fractional sums are
outside the scalar model; no claim exercises SUM). -/
def sumValue (data : List Row) (col : String) : Value :=
  let vals := data.filterMap (fun r =>
    match rowGet r col with
    | some v => if valIsNull v then none else some v
    | none => none)
  let passing := vals.filter digitCheck
  let parsed := passing.filterMap (fun v => pyParseFloat (pyStr v))
  if parsed.length != passing.length then vInt 0
  else
    let q : ℚ := parsed.foldl (fun a b => a + b) 0
    if q.den == 1 then vInt q.num else vStr (toString q)

/-- `AVG(col)`: mean of the float-parsed values passing `digitCheck`
(0 when none); same modelling remarks as `sumValue`. -/
def avgValue (data : List Row) (col : String) : Value :=
  let vals := data.filterMap (fun r =>
    match rowGet r col with
    | some v => if valIsNull v then none else some v
    | none => none)
  let passing := vals.filter digitCheck
  let parsed := passing.filterMap (fun v => pyParseFloat (pyStr v))
  if parsed.length != passing.length then vInt 0
  else if parsed.isEmpty then vInt 0
  else
    let q : ℚ := (parsed.foldl (fun a b => a + b) 0) / (parsed.length : ℚ)
    if q.den == 1 then vInt q.num else vStr (toString q)

/-- `_handle_aggregation`: `SELECT *` queries and clauses without any
aggregate keyword pass through; otherwise one synthetic row is built with
the `COUNT(*)` entry, then every `SUM(col)`, then every `AVG(col)`, keyed
by the textual labels, which also become the new column list. -/
def handleAggregation (data : List Row) (selectClause : String)
    (columns : List String) : List Row × List String :=
  if strContains selectClause "*" && strContains (pyUpper selectClause) "FROM" then
    (data, columns)
  else
    let hasAgg := ["COUNT", "SUM", "AVG", "MIN", "MAX"].any
      (fun f => strContains (pyUpper selectClause) f)
    if !hasAgg then (data, columns)
    else
      let countPart : Row :=
        if hasCountStar selectClause then [("COUNT(*)", vInt data.length)] else []
      let sumCols := findAggCalls "SUM" selectClause
      let avgCols := findAggCalls "AVG" selectClause
      let sumPart : Row := sumCols.map (fun c => ("SUM(" ++ c ++ ")", sumValue data c))
      let avgPart : Row := avgCols.map (fun c => ("AVG(" ++ c ++ ")", avgValue data c))
      let resultRow : Row := countPart ++ sumPart ++ avgPart
      let newColumns := resultRow.map (fun p => p.1)
      (([resultRow] : List Row), if newColumns.isEmpty then columns else newColumns)

/-! ### HAVING (`_apply_having_clause`) -/

/-- `_apply_having_clause`: a single `>`/`<`/`=` textual condition applied
per row; any per-row exception (an unparsable float, a non-numeric row
value under an ordering) silently drops the row. -/
def applyHavingClause (data : List Row) (havingClause : String) : List Row :=
  data.filter (fun row =>
    if strContains havingClause ">" then
      match splitOnChar '>' havingClause with
      | p0 :: p1 :: _ =>
          let col := pyStrip p0
          match pyParseFloat (pyStrip p1) with
          | none => false
          | some q =>
              match valAsNum ((rowGet row col).getD (vInt 0)) with
              | none => false
              | some a => decide (q < a)
      | _ => false
    else if strContains havingClause "<" then
      match splitOnChar '<' havingClause with
      | p0 :: p1 :: _ =>
          let col := pyStrip p0
          match pyParseFloat (pyStrip p1) with
          | none => false
          | some q =>
              match valAsNum ((rowGet row col).getD (vInt 0)) with
              | none => false
              | some a => decide (a < q)
      | _ => false
    else if strContains havingClause "=" then
      match splitOnChar '=' havingClause with
      | p0 :: p1 :: _ =>
          let col := pyStrip p0
          let tgt := stripQuotes (pyStrip p1)
          pyStr ((rowGet row col).map pyStr |>.getD "" |> vStr) == tgt
      | _ => false
    else false)

/-! ### ORDER BY (`_handle_select`, sort block) -/

/-- The sort key of a row: the raw column value; a missing or null value
sorts as the empty string ascending or a maximal `z`-run descending. -/
def sortKeyOf (orderCol dir : String) (r : Row) : Value :=
  match rowGet r orderCol with
  | none => if dir == "ASC" then vStr "" else vStr (String.mk (List.replicate 100 'z'))
  | some v =>
      if valIsNull v then
        if dir == "ASC" then vStr "" else vStr (String.mk (List.replicate 100 'z'))
      else v

/-- Are two sort keys comparable in Python (`int`/`bool` with `int`/`bool`,
`str` with `str`)? Mixing raises `TypeError`, failing the statement. -/
def keysComparable (a b : Value) : Bool :=
  match valAsNum a, valAsNum b with
  | some _, some _ => true
  | _, _ =>
      match a, b with
      | vStr _, vStr _ => true
      | _, _ => false

/-- Python `<=` on comparable sort keys. -/
def keyLe (a b : Value) : Bool :=
  match valAsNum a, valAsNum b with
  | some x, some y => decide (x ≤ y)
  | _, _ =>
      match a, b with
      | vStr x, vStr y => decide (x ≤ y)
      | _, _ => false

/-- Stable insertion into a sorted list (insert after equal keys, matching
Timsort stability). -/
def stableInsert (le : Row → Row → Bool) (r : Row) : List Row → List Row
  | [] => [r]
  | x :: xs => if le x r then x :: stableInsert le r xs else r :: x :: xs

/-- Stable sort by insertion. -/
def stableSort (le : Row → Row → Bool) : List Row → List Row
  | [] => []
  | x :: xs => stableInsert le x (stableSort le xs)

/-- The ORDER BY block: stable sort on the raw column value ascending, or
on reversed comparisons descending; incomparable keys raise `TypeError`. -/
def orderRows (data : List Row) (orderCol dir : String) :
    Except String (List Row) :=
  if (data.all (fun r => data.all (fun r2 =>
      keysComparable (sortKeyOf orderCol dir r) (sortKeyOf orderCol dir r2)))) then
    let le : Row → Row → Bool :=
      if dir == "DESC" then
        fun a b => keyLe (sortKeyOf orderCol dir b) (sortKeyOf orderCol dir a)
      else
        fun a b => keyLe (sortKeyOf orderCol dir a) (sortKeyOf orderCol dir b)
    .ok (stableSort le data)
  else .error "TypeError: unorderable sort keys"

/-! ### SELECT clause extraction (the `re.search` calls of `_handle_select`)

Each extractor models its regex with Python `re.search` semantics:
leftmost match position, greedy or lazy groups as written, `IGNORECASE`
throughout, `DOTALL` where set. Statements are `strip()`-ed before
dispatch, so `$` only matches at the very end of the text. -/

/-- Does a lazy group's continuation `(?:\s+(KW1|KW2|...|$))` match here:
at least one whitespace character, then one of the keywords or (when
`allowEnd`) the end of the string. The keywords never begin with
whitespace, so consuming the maximal whitespace run is equivalent to the
backtracking search. -/
def lazyTermAt (kws : List String) (allowEnd : Bool) (cs : List Char) : Bool :=
  let ws := cs.takeWhile pySpace
  if ws.isEmpty then false
  else
    let rest := cs.dropWhile pySpace
    (allowEnd && rest.isEmpty) ||
      kws.any (fun k => (charsStartWithCI k.data rest).isSome)

/-- The shortest non-empty prefix of `cs` whose remainder satisfies the
terminator — the lazy `(.+?)` group. `none` when no split succeeds. -/
def lazyGroup (kws : List String) (allowEnd : Bool) :
    List Char → List Char → Option (List Char)
  | _, [] => none
  | acc, c :: rem =>
      let acc2 := acc ++ [c]
      if lazyTermAt kws allowEnd rem then some acc2
      else lazyGroup kws allowEnd acc2 rem

/-- `re.search(r'KEYWORD\s+(.+?)(?:\s+(KW|...|$))', q)` for a leading
keyword: at the leftmost position where the keyword is followed by
whitespace and a completable lazy group, return that group. -/
def lazyExtract (keyword : String) (kws : List String) (allowEnd : Bool)
    (q : String) : Option String :=
  let tryAt (cs : List Char) : Option (List Char) := do
    let afterKw ← charsStartWithCI keyword.data cs
    let ws := afterKw.takeWhile pySpace
    if ws.isEmpty then none
    else lazyGroup kws allowEnd [] (afterKw.dropWhile pySpace)
  let rec scan : List Char → Option (List Char)
    | [] => none
    | c :: rest =>
        match tryAt (c :: rest) with
        | some g => some g
        | none => scan rest
  (scan q.data).map String.mk

/-- `re.search(r'WHERE\s+(.+?)(?:\s+(ORDER|GROUP|LIMIT|$))', q)`. The `$`
alternative sits behind a mandatory `\s+`, so a statement that ends at its
WHERE clause (statements are stripped) never matches and the clause is
silently ignored. -/
def whereExtract (q : String) : Option String :=
  lazyExtract "WHERE" ["ORDER", "GROUP", "LIMIT"] true q

/-- `re.search(r'HAVING\s+(.+?)(?:\s+(ORDER|LIMIT|$))', q)`; same trailing
behaviour as `whereExtract`. -/
def havingExtract (q : String) : Option String :=
  lazyExtract "HAVING" ["ORDER", "LIMIT"] true q

/-- `re.search(r'SELECT\s+(.+?)\s+FROM', q)`. -/
def selectClauseExtract (q : String) : Option String :=
  lazyExtract "SELECT" ["FROM"] false q

/-- `re.search(r'FROM\s+(\w+)', q)`: the first word after `FROM` and
whitespace. -/
def fromExtract (q : String) : Option String :=
  let tryAt (cs : List Char) : Option String := do
    let afterKw ← charsStartWithCI "FROM".data cs
    let ws := afterKw.takeWhile pySpace
    if ws.isEmpty then none
    else
      let rest := afterKw.dropWhile pySpace
      let w := rest.takeWhile wordChar
      if w.isEmpty then none else some (String.mk w)
  let rec scan : List Char → Option String
    | [] => none
    | c :: rest =>
        match tryAt (c :: rest) with
        | some g => some g
        | none => scan rest
  scan q.data

/-- `re.search(r'(LEFT\s+)?JOIN\s+(\w+)\s+ON\s+([\w.]+)\s*=\s*([\w.]+)', q)`:
`(is_left, joined table, left column, right column)`. -/
def joinExtract (q : String) : Option (Bool × String × String × String) :=
  let afterJoin (cs : List Char) : Option (String × String × String) := do
    let r1 ← charsStartWithCI "JOIN".data cs
    let ws1 := r1.takeWhile pySpace
    if ws1.isEmpty then none else
    let r2 := r1.dropWhile pySpace
    let tbl := r2.takeWhile wordChar
    if tbl.isEmpty then none else
    let r3 := r2.dropWhile wordChar
    let ws2 := r3.takeWhile pySpace
    if ws2.isEmpty then none else
    let r4 ← charsStartWithCI "ON".data (r3.dropWhile pySpace)
    let ws3 := r4.takeWhile pySpace
    if ws3.isEmpty then none else
    let r5 := r4.dropWhile pySpace
    let lcol := r5.takeWhile wordDotChar
    if lcol.isEmpty then none else
    let r6 := (r5.dropWhile wordDotChar).dropWhile pySpace
    match r6 with
    | '=' :: r7 =>
        let r8 := r7.dropWhile pySpace
        let rcol := r8.takeWhile wordDotChar
        if rcol.isEmpty then none
        else some (String.mk tbl, String.mk lcol, String.mk rcol)
    | _ => none
  let tryAt (cs : List Char) : Option (Bool × String × String × String) :=
    match charsStartWithCI "LEFT".data cs with
    | some r1 =>
        let ws := r1.takeWhile pySpace
        if !ws.isEmpty then
          match afterJoin (r1.dropWhile pySpace) with
          | some (t, l, r) => some (true, t, l, r)
          | none => (afterJoin cs).map (fun p => (false, p.1, p.2.1, p.2.2))
        else (afterJoin cs).map (fun p => (false, p.1, p.2.1, p.2.2))
    | none => (afterJoin cs).map (fun p => (false, p.1, p.2.1, p.2.2))
  let rec scan : List Char → Option (Bool × String × String × String)
    | [] => none
    | c :: rest =>
        match tryAt (c :: rest) with
        | some g => some g
        | none => scan rest
  scan q.data

/-- `re.search(r'ORDER\s+BY\s+([\w.]+)\s*(ASC|DESC)?', q)`: the column and
the optional direction (uppercased by the caller; `ASC` when absent). -/
def orderExtract (q : String) : Option (String × String) :=
  let tryAt (cs : List Char) : Option (String × String) := do
    let r1 ← charsStartWithCI "ORDER".data cs
    let ws1 := r1.takeWhile pySpace
    if ws1.isEmpty then none else
    let r2 ← charsStartWithCI "BY".data (r1.dropWhile pySpace)
    let ws2 := r2.takeWhile pySpace
    if ws2.isEmpty then none else
    let r3 := r2.dropWhile pySpace
    let col := r3.takeWhile wordDotChar
    if col.isEmpty then none else
    let r4 := (r3.dropWhile wordDotChar).dropWhile pySpace
    let dir : String :=
      match charsStartWithCI "ASC".data r4 with
      | some _ => "ASC"
      | none =>
          match charsStartWithCI "DESC".data r4 with
          | some _ => "DESC"
          | none => "ASC"
    some (String.mk col, dir)
  let rec scan : List Char → Option (String × String)
    | [] => none
    | c :: rest =>
        match tryAt (c :: rest) with
        | some g => some g
        | none => scan rest
  scan q.data

/-- `re.search(r'GROUP\s+BY\s+([\w.]+)', q)`. -/
def groupExtract (q : String) : Option String :=
  let tryAt (cs : List Char) : Option String := do
    let r1 ← charsStartWithCI "GROUP".data cs
    let ws1 := r1.takeWhile pySpace
    if ws1.isEmpty then none else
    let r2 ← charsStartWithCI "BY".data (r1.dropWhile pySpace)
    let ws2 := r2.takeWhile pySpace
    if ws2.isEmpty then none else
    let r3 := r2.dropWhile pySpace
    let col := r3.takeWhile wordDotChar
    if col.isEmpty then none else some (String.mk col)
  let rec scan : List Char → Option String
    | [] => none
    | c :: rest =>
        match tryAt (c :: rest) with
        | some g => some g
        | none => scan rest
  scan q.data

/-- `re.search(r'LIMIT\s+(\d+)', q)`. -/
def limitExtract (q : String) : Option Nat :=
  let tryAt (cs : List Char) : Option Nat := do
    let r1 ← charsStartWithCI "LIMIT".data cs
    let ws1 := r1.takeWhile pySpace
    if ws1.isEmpty then none else
    let r2 := r1.dropWhile pySpace
    match parseDigits r2 with
    | some (n, _) => some n
    | none => none
  let rec scan : List Char → Option Nat
    | [] => none
    | c :: rest =>
        match tryAt (c :: rest) with
        | some g => some g
        | none => scan rest
  scan q.data

/-- `list(set(columns))`: de-duplication. CPython's set iteration order is
hash-based; it is modelled as first-occurrence order, exact whenever the
de-duplicated list is a singleton or already duplicate-free. -/
def listSet (cols : List String) : List String :=
  let rec go (seen : List String) : List String → List String
    | [] => []
    | c :: rest =>
        if seen.contains c then go seen rest else c :: go (c :: seen) rest
  go [] cols

/-- `_handle_select_functions`: a FROM-less SELECT naming a system
pseudo-function returns one synthetic row. The wall clock of `NOW()` and
the engine's current database name are injected as parameters. -/
def handleSelectFunctions (currentName : Option String) (nowStr : String)
    (q : String) : Option (List Row × List String) :=
  if strContains (pyUpper q) "FROM" then none
  else if strContains (pyUpper q) "VERSION()" then
    some ([[("VERSION()", vStr "RDBMS Challenge v1.0.0")]], ["VERSION()"])
  else if strContains (pyUpper q) "USER()" then
    some ([[("USER()", vStr "admin@localhost")]], ["USER()"])
  else if strContains (pyUpper q) "DATABASE()" then
    some ([[("DATABASE()", vStr (currentName.getD "NULL"))]], ["DATABASE()"])
  else if strContains (pyUpper q) "NOW()" then
    some ([[("NOW()", vStr nowStr)]], ["NOW()"])
  else none

/-- `_handle_select`: system functions, FROM lookup, scan, optional join,
optional WHERE, optional ORDER BY, aggregation over the SELECT clause,
optional GROUP BY, optional HAVING, optional LIMIT, then the
`list(set(...))` column list. Errors model the exceptions `execute_sql`
turns into failed results. -/
def handleSelect (tables : List TableSchema) (currentName : Option String)
    (nowStr : String) (q : String) : Except String (List Row × List String) :=
  match handleSelectFunctions currentName nowStr q with
  | some res => .ok res
  | none =>
      match fromExtract q with
      | none => .error "Missing FROM clause"
      | some tName =>
          match tables.find? (fun t => t.name == tName) with
          | none => .error ("Table " ++ tName ++ " not found")
          | some table => do
              let base : List Row × List String :=
                (scanRows table, table.columns.map (fun c => c.name))
              let joined : List Row × List String ←
                match joinExtract q with
                | none => pure base
                | some (isLeft, jName, lcolFull, rcolFull) =>
                    match tables.find? (fun t => t.name == jName) with
                    | none => .error ("Joined table " ++ jName ++ " not found")
                    | some jt =>
                        let lc := lastDot lcolFull
                        let rc := lastDot rcolFull
                        let res :=
                          if isLeft then
                            leftJoinRows base.1 jt.rows lc rc
                              (jt.columns.map (fun c => c.name))
                          else innerJoinRows base.1 jt.rows lc rc
                        match res with
                        | none => .error "KeyError"
                        | some jd =>
                            pure (jd, base.2 ++ jt.columns.map (fun c => c.name))
              let afterWhere : List Row :=
                match whereExtract q with
                | none => joined.1
                | some w => applyWhereClause joined.1 (pyStrip w)
              let afterOrder : List Row ←
                match orderExtract q with
                | none => pure afterWhere
                | some (col, dir) => orderRows afterWhere (lastDot col) dir
              let afterAgg : List Row × List String :=
                match selectClauseExtract q with
                | none => (afterOrder, joined.2)
                | some clause => handleAggregation afterOrder (pyStrip clause) joined.2
              let afterGroup : List Row :=
                match groupExtract q with
                | none => afterAgg.1
                | some g => handleGroupBy afterAgg.1 (lastDot g)
              let afterHaving : List Row :=
                match havingExtract q with
                | none => afterGroup
                | some h => applyHavingClause afterGroup (pyStrip h)
              let afterLimit : List Row :=
                match limitExtract q with
                | none => afterHaving
                | some n => afterHaving.take n
              pure (afterLimit, listSet afterAgg.2)

/-! ### Invariants -/

/-- Pairwise check over a list in order. -/
def pairwiseB (p : α → α → Bool) : List α → Bool
  | [] => true
  | x :: xs => xs.all (p x) && pairwiseB p xs

/-- No later row carries a non-null value Python-equal to an earlier row's
value in the given column. -/
def noDupColB (rows : List Row) (colName : String) : Bool :=
  pairwiseB (fun r1 r2 =>
    let v2 := rowGetD r2 colName
    valIsNull v2 || !pyEq (rowGetD r1 colName) v2) rows

/-- The no-duplicate invariant: every primary-key or unique column carries
no duplicate non-null values across the table's rows. -/
def noDupB (t : TableSchema) : Bool :=
  t.columns.all (fun c =>
    if c.isPrimaryKey || c.isUnique then noDupColB t.rows c.name else true)

/-- The NOT NULL invariant: after default back-fill, every row holds a
non-null value in each non-nullable column. -/
def nonNullB (t : TableSchema) : Bool :=
  t.rows.all (fun r =>
    t.columns.all (fun c =>
      c.nullable || !valIsNull (rowGetD (backfillRow t.columns r) c.name)))

/-! ### Specification-side definition for GROUP BY -/

/-- Stated from the spec's words, for comparison with `handleGroupBy`: walk
the rows in input order and keep exactly the first row carrying each
distinct key (keys compared with Python `==`), one row per distinct key in
order of first appearance. -/
def groupByFirstRowSpec (groupCol : String) : List Row → List Value → List Row
  | [], _ => []
  | r :: rest, seen =>
      let k := rowGetD r groupCol
      if seen.any (fun s => pyEq s k) then groupByFirstRowSpec groupCol rest seen
      else r :: groupByFirstRowSpec groupCol rest (seen ++ [k])

/-! ### Basic lemmas -/

instance {ε α : Type _} [DecidableEq ε] [DecidableEq α] :
    DecidableEq (Except ε α) := fun a b =>
  match a, b with
  | .error x, .error y =>
      if h : x = y then isTrue (h ▸ rfl)
      else isFalse (fun hc => h (by injection hc))
  | .ok x, .ok y =>
      if h : x = y then isTrue (h ▸ rfl)
      else isFalse (fun hc => h (by injection hc))
  | .error _, .ok _ => isFalse (fun hc => by injection hc)
  | .ok _, .error _ => isFalse (fun hc => by injection hc)

theorem except_ok_of_toOption {ε α : Type _} (e : Except ε α) (x : α)
    (h : e.toOption = some x) : e = .ok x := by
  cases e with
  | error err => simp [Except.toOption] at h
  | ok y => simpa [Except.toOption] using h

theorem updateCell_coerced (t : TableSchema) (i : Int) (col v : String)
    (v2 : Value) (h1 : ¬ ((t.rows.length : Int) ≤ i))
    (hc : cellCoerceValue t col v = some v2) :
    updateCell t i col v =
      (let idx : Int := if i < 0 then (t.rows.length : Int) + i else i
       if idx < 0 then .error .pyIndexError
       else match t.rows.get? idx.toNat with
         | none => .error .pyIndexError
         | some r =>
             .ok { t with rows := t.rows.set idx.toNat (rowSet r col v2) }) := by
  unfold updateCell
  rw [if_neg h1, hc]

theorem pairwiseB_append_singleton (p : α → α → Bool) (l : List α) (a : α) :
    pairwiseB p (l ++ [a]) = (pairwiseB p l && l.all (fun x => p x a)) := by
  induction l with
  | nil => simp [pairwiseB]
  | cons x xs ih =>
      simp only [List.cons_append, pairwiseB, List.all_append, List.all_cons,
        List.all_nil, ih, List.all_eq_true, Bool.and_true]
      cases h1 : xs.all (p x) <;> cases h2 : p x a <;>
        cases h3 : pairwiseB p xs <;> cases h4 : xs.all (fun y => p y a) <;>
        simp [ih, h1, h2, h3, h4]

theorem checkUniqueCols_ok_all (rows : List Row) (newRow : Row)
    (cols : List ColumnSchema)
    (h : checkUniqueCols rows newRow cols = .ok ()) :
    ∀ c ∈ cols, (c.isPrimaryKey || c.isUnique) = true →
      valIsNull (rowGetD newRow c.name) = false →
      rows.all (fun r => !pyEq (rowGetD r c.name) (rowGetD newRow c.name)) = true := by
  induction cols with
  | nil => intro c hc; simp at hc
  | cons c0 rest ih =>
      intro c hc hflag hnn
      rcases List.mem_cons.mp hc with hceq | hcrest
      · subst hceq
        simp only [checkUniqueCols, hflag, if_true] at h
        rw [hnn] at h
        simp only [Bool.not_false, if_true] at h
        by_cases hany : rows.any
            (fun r => pyEq (rowGetD r c.name) (rowGetD newRow c.name)) = true
        · rw [hany] at h; simp at h
        · simp only [List.all_eq_true]
          intro r hr
          simp only [List.any_eq_true, not_exists, not_and] at hany
          push_neg at hany
          have := hany r hr
          simp [this]
      · apply ih _ c hcrest hflag hnn
        simp only [checkUniqueCols] at h
        by_cases hflag0 : (c0.isPrimaryKey || c0.isUnique) = true
        · rw [hflag0] at h
          simp only [if_true] at h
          by_cases hnn0 : valIsNull (rowGetD newRow c0.name) = true
          · rw [hnn0] at h; simpa using h
          · rw [Bool.not_eq_true] at hnn0
            rw [hnn0] at h
            simp only [Bool.not_false, if_true] at h
            by_cases hany0 : rows.any
                (fun r => pyEq (rowGetD r c0.name) (rowGetD newRow c0.name)) = true
            · rw [hany0] at h; simp at h
            · rw [Bool.not_eq_true] at hany0; rw [hany0] at h; simpa using h
        · rw [Bool.not_eq_true] at hflag0; rw [hflag0] at h; simpa using h

theorem noDupB_append_of_checkUnique (t : TableSchema) (r : Row)
    (hinv : noDupB t = true)
    (hok : checkUniqueCols t.rows r t.columns = .ok ()) :
    noDupB { t with rows := t.rows ++ [r] } = true := by
  simp only [noDupB, List.all_eq_true] at hinv ⊢
  intro c hc
  by_cases hflag : (c.isPrimaryKey || c.isUnique) = true
  · have hbase := hinv c hc
    rw [if_pos hflag] at hbase
    rw [if_pos hflag]
    simp only [noDupColB] at hbase ⊢
    rw [pairwiseB_append_singleton, hbase]
    simp only [Bool.true_and]
    by_cases hnn : valIsNull (rowGetD r c.name) = true
    · simp only [List.all_eq_true]
      intro x _
      simp [hnn]
    · rw [Bool.not_eq_true] at hnn
      have := checkUniqueCols_ok_all t.rows r t.columns hok c hc hflag hnn
      simp only [List.all_eq_true] at this ⊢
      intro x hx
      have hx2 := this x hx
      simp only [Bool.not_eq_true'] at hx2
      simp [hnn, hx2]
  · rw [if_neg hflag]

theorem checkIntegrity_ok_unique (db : List TableSchema) (t : TableSchema)
    (r : Row) (b : Bool)
    (h : checkIntegrityConstraints db t r b = .ok ()) :
    checkUniqueCols t.rows r t.columns = .ok () := by
  simp only [checkIntegrityConstraints] at h
  cases h1 : checkNotNullCols r b t.columns with
  | error m => rw [h1] at h; simp [Bind.bind, Except.bind] at h
  | ok u =>
      rw [h1] at h
      cases u
      cases h2 : checkUniqueCols t.rows r t.columns with
      | error m => rw [h2] at h; simp [Bind.bind, Except.bind] at h
      | ok u2 => cases u2; rfl

theorem insertRowsAux_preserves_noDup (db : List TableSchema)
    (cols : List String) (tuples : List (List String)) :
    ∀ (t : TableSchema) (n : Nat), noDupB t = true →
      noDupB (insertRowsAux db cols t n tuples).1 = true := by
  induction tuples with
  | nil => intro t n h; simpa [insertRowsAux] using h
  | cons toks rest ih =>
      intro t n h
      simp only [insertRowsAux]
      split
      · exact h
      · next r1 hai =>
          split
          · exact h
          · next r2 had =>
              split
              · exact h
              · next u hch =>
                  apply ih
                  exact noDupB_append_of_checkUnique t r2 h
                    (checkIntegrity_ok_unique _ _ _ _ hch)

/-! ### C1 -/

/-- Claim C1 counterexample: the claim quantifies over **every** public
operation, but UPDATE bypasses constraint enforcement. On a table with
primary-key column `id` and rows `{id: 1}, {id: 2}` satisfying the
no-duplicate invariant, `UPDATE t SET id = 1 WHERE id = 2` succeeds and
leaves two rows with the duplicate non-null primary-key value 1. -/
theorem c1_counterexample :
    noDupB { id := "t", name := "t",
             columns := [{ id := "c0", name := "id", type := "INT",
                           nullable := false, isPrimaryKey := true }],
             rows := [[("id", vInt 1)], [("id", vInt 2)]] } = true ∧
    handleUpdate
      { id := "t", name := "t",
        columns := [{ id := "c0", name := "id", type := "INT",
                      nullable := false, isPrimaryKey := true }],
        rows := [[("id", vInt 1)], [("id", vInt 2)]] }
      "id = 1" (some "id = 2") =
      .ok ({ id := "t", name := "t",
             columns := [{ id := "c0", name := "id", type := "INT",
                           nullable := false, isPrimaryKey := true }],
             rows := [[("id", vInt 1)], [("id", vInt 1)]] }, 1) ∧
    noDupB { id := "t", name := "t",
             columns := [{ id := "c0", name := "id", type := "INT",
                           nullable := false, isPrimaryKey := true }],
             rows := [[("id", vInt 1)], [("id", vInt 1)]] } = false := by
  refine ⟨by decide, by rfl, by decide⟩

/-- Claim C1, amended: row admission through the constraint enforcer
preserves the no-duplicate invariant — an INSERT statement (however many
value tuples it carries, and whether it succeeds or aborts partway) leaves
a table satisfying the invariant whenever the table satisfied it before.
UPDATE and the cell-update endpoint bypass enforcement and can violate it. -/
theorem c1_amended (db : List TableSchema) (t : TableSchema)
    (cols : List String) (tuples : List (List String))
    (hinv : noDupB t = true) :
    noDupB (insertRows db t cols tuples).1 = true :=
  insertRowsAux_preserves_noDup db cols tuples t 0 hinv

/-- Witness for `c1_amended` at a concrete table and a two-tuple INSERT. -/
theorem c1_amended_witness :
    noDupB { id := "t", name := "t",
             columns := [{ id := "c0", name := "id", type := "INT",
                           nullable := false, isPrimaryKey := true }],
             rows := [[("id", vInt 1)]] } = true ∧
    noDupB (insertRows []
      { id := "t", name := "t",
        columns := [{ id := "c0", name := "id", type := "INT",
                      nullable := false, isPrimaryKey := true }],
        rows := [[("id", vInt 1)]] }
      ["id"] [["2"], ["3"]]).1 = true :=
  ⟨by decide, c1_amended _ _ _ _ (by decide)⟩

/-! ### C2 -/

theorem insertRowsAux_partial_effect (db : List TableSchema)
    (cols : List String) (tuples : List (List String)) :
    ∀ (t : TableSchema) (n : Nat),
      (insertRowsAux db cols t n tuples).1.columns = t.columns ∧
      (insertRowsAux db cols t n tuples).1.rows.take t.rows.length = t.rows ∧
      (insertRowsAux db cols t n tuples).1.rows.length + n =
        t.rows.length + (insertRowsAux db cols t n tuples).2.1 ∧
      ((insertRowsAux db cols t n tuples).2.2 = none ↔
        (insertRowsAux db cols t n tuples).2.1 = n + tuples.length) ∧
      ((insertRowsAux db cols t n tuples).2.2.isSome = true →
        (insertRowsAux db cols t n tuples).2.1 < n + tuples.length) := by
  induction tuples with
  | nil =>
      intro t n
      refine ⟨rfl, List.take_length t.rows, by simp [insertRowsAux], ?_, ?_⟩
      · simp [insertRowsAux]
      · simp [insertRowsAux]
  | cons toks rest ih =>
      intro t n
      simp only [insertRowsAux]
      split
      · refine ⟨rfl, List.take_length t.rows, by simp, ?_, ?_⟩
        · simp only [List.length_cons]
          constructor
          · intro hc; exact absurd hc (by simp)
          · intro hc; omega
        · intro _; simp only [List.length_cons]; omega
      · next r1 hai =>
          split
          · refine ⟨rfl, List.take_length t.rows, by simp, ?_, ?_⟩
            · simp only [List.length_cons]
              constructor
              · intro hc; exact absurd hc (by simp)
              · intro hc; omega
            · intro _; simp only [List.length_cons]; omega
          · next r2 had =>
              split
              · refine ⟨rfl, List.take_length t.rows, by simp, ?_, ?_⟩
                · simp only [List.length_cons]
                  constructor
                  · intro hc; exact absurd hc (by simp)
                  · intro hc; omega
                · intro _; simp only [List.length_cons]; omega
              · next u hch =>
                  obtain ⟨ihc, ihtake, ihlen, ihiff, ihlt⟩ :=
                    ih { t with rows := t.rows ++ [r2] } (n + 1)
                  refine ⟨ihc, ?_, ?_, ?_, ?_⟩
                  · have hmin : min t.rows.length (t.rows ++ [r2]).length =
                        t.rows.length := min_eq_left (by simp)
                    have : (insertRowsAux db cols
                        { t with rows := t.rows ++ [r2] } (n + 1) rest).1.rows.take
                          t.rows.length =
                        ((insertRowsAux db cols
                          { t with rows := t.rows ++ [r2] } (n + 1) rest).1.rows.take
                            (t.rows ++ [r2]).length).take t.rows.length := by
                      rw [List.take_take, hmin]
                    rw [this, ihtake, List.take_left]
                  · simp only [List.length_append, List.length_cons,
                      List.length_nil] at ihlen
                    omega
                  · rw [ihiff]
                    simp only [List.length_append, List.length_cons,
                      List.length_nil]
                    omega
                  · intro hs
                    have := ihlt hs
                    simp only [List.length_append, List.length_cons,
                      List.length_nil] at this
                    simp only [List.length_cons]
                    omega

/-- Claim C2, amended: when any candidate row of an INSERT violates a
constraint, the statement reports failure with an error message, but the
candidate rows **preceding** the first violating tuple have already been
appended and remain: the prior rows stay as a prefix, exactly
`rows_inserted` new rows follow them, the statement succeeds exactly when
every tuple was admitted, and on failure fewer than all tuples were
admitted. (The claim's "the table's row list is exactly what it was
before" holds only when the very first candidate row violates.) -/
theorem c2_amended (db : List TableSchema) (t : TableSchema)
    (cols : List String) (tuples : List (List String)) :
    (insertRows db t cols tuples).1.columns = t.columns ∧
    (insertRows db t cols tuples).1.rows.take t.rows.length = t.rows ∧
    (insertRows db t cols tuples).1.rows.length =
      t.rows.length + (insertRows db t cols tuples).2.1 ∧
    ((insertRows db t cols tuples).2.2 = none ↔
      (insertRows db t cols tuples).2.1 = tuples.length) ∧
    ((insertRows db t cols tuples).2.2.isSome = true →
      (insertRows db t cols tuples).2.1 < tuples.length) := by
  simp only [insertRows]
  obtain ⟨hc, htake, hlen, hiff, hlt⟩ :=
    insertRowsAux_partial_effect db cols tuples t 0
  refine ⟨hc, htake, by omega, ?_, ?_⟩
  · rw [hiff]; omega
  · intro hs; have := hlt hs; omega

/-- Claim C2 counterexample: on a table with primary-key column `id` and
one row `{id: 1}`, the two-tuple statement `INSERT ... VALUES (2), (1)`
fails on its second tuple (duplicate key), yet the first tuple's row has
been admitted: the table ends with two rows, not its original one. -/
theorem c2_counterexample :
    (insertRows []
      { id := "t", name := "t",
        columns := [{ id := "c0", name := "id", type := "INT",
                      nullable := false, isPrimaryKey := true }],
        rows := [[("id", vInt 1)]] }
      ["id"] [["2"], ["1"]]).2.2.isSome = true ∧
    (insertRows []
      { id := "t", name := "t",
        columns := [{ id := "c0", name := "id", type := "INT",
                      nullable := false, isPrimaryKey := true }],
        rows := [[("id", vInt 1)]] }
      ["id"] [["2"], ["1"]]).1.rows =
      [[("id", vInt 1)], [("id", vInt 2)]] := by
  exact ⟨by decide, by decide⟩

/-! ### Row-update and back-fill lemmas -/

theorem rowGet_cons (p : String × Value) (rest : Row) (k : String) :
    rowGet (p :: rest) k =
      if (p.1 == k) = true then some p.2 else rowGet rest k := by
  by_cases h : (p.1 == k) = true <;> simp [rowGet, List.find?_cons, h]

theorem rowGet_map_set_self (k : String) (v : Value) :
    ∀ (r : Row),
      rowGet (r.map (fun p => if p.1 == k then (k, v) else p)) k =
        if (List.find? (fun p => p.1 == k) r).isSome then some v
        else none := by
  intro r
  induction r with
  | nil => simp [rowGet]
  | cons p rest ih =>
      cases hb : (p.1 == k) with
      | true =>
          simp only [List.map_cons, if_pos hb]
          rw [rowGet_cons]
          simp [List.find?_cons, hb]
      | false =>
          simp only [List.map_cons, hb, Bool.false_eq_true, if_false]
          rw [rowGet_cons]
          simp only [List.find?_cons, hb, Bool.false_eq_true, if_false]
          exact ih

theorem rowGet_map_set_other (k k2 : String) (v : Value) (hne : k ≠ k2) :
    ∀ (r : Row),
      rowGet (r.map (fun p => if p.1 == k then (k, v) else p)) k2 =
        rowGet r k2 := by
  intro r
  have hkk2 : (k == k2) = false := by simp [hne]
  induction r with
  | nil => simp
  | cons p rest ih =>
      cases hb : (p.1 == k) with
      | true =>
          have hp2 : (p.1 == k2) = false := by
            have : p.1 = k := by simpa using hb
            simp [this, hne]
          simp only [List.map_cons, if_pos hb]
          rw [rowGet_cons, rowGet_cons]
          simp only [hkk2, hp2, Bool.false_eq_true, if_false]
          exact ih
      | false =>
          simp only [List.map_cons, hb, Bool.false_eq_true, if_false]
          rw [rowGet_cons, rowGet_cons]
          cases hp2 : (p.1 == k2) with
          | true => simp [hp2]
          | false =>
              simp only [hp2, Bool.false_eq_true, if_false]
              exact ih

theorem rowGet_append_single (k k2 : String) (v : Value) :
    ∀ (r : Row),
      rowGet (r ++ [(k, v)]) k2 =
        if (rowGet r k2).isSome then rowGet r k2
        else if k = k2 then some v else none := by
  intro r
  induction r with
  | nil =>
      rw [List.nil_append, rowGet_cons]
      by_cases h : k = k2 <;> simp [rowGet, h]
  | cons p rest ih =>
      rw [List.cons_append, rowGet_cons, rowGet_cons]
      cases hp2 : (p.1 == k2) with
      | true => simp [hp2]
      | false =>
          simp only [hp2, Bool.false_eq_true, if_false]
          exact ih

theorem rowGet_rowSet_self (r : Row) (k : String) (v : Value) :
    rowGet (rowSet r k v) k = some v := by
  unfold rowSet
  by_cases h : (List.find? (fun p => p.1 == k) r).isSome = true
  · rw [if_pos h, rowGet_map_set_self, if_pos h]
  · rw [if_neg h, rowGet_append_single]
    have hnone : rowGet r k = none := by
      unfold rowGet
      cases hf : List.find? (fun p => p.1 == k) r with
      | none => rfl
      | some p => rw [hf] at h; simp at h
    simp [hnone]

theorem rowGet_rowSet_other (r : Row) (k k2 : String) (v : Value)
    (hne : k ≠ k2) :
    rowGet (rowSet r k v) k2 = rowGet r k2 := by
  unfold rowSet
  by_cases h : (List.find? (fun p => p.1 == k) r).isSome = true
  · rw [if_pos h, rowGet_map_set_other k k2 v hne]
  · rw [if_neg h, rowGet_append_single]
    by_cases hs : (rowGet r k2).isSome = true
    · rw [if_pos hs]
    · rw [if_neg hs, if_neg hne]
      cases ho : rowGet r k2 with
      | none => rfl
      | some x => rw [ho] at hs; simp at hs

theorem backfillStep_rowGet_of_isSome (r : Row) (c : ColumnSchema)
    (k : String) (h : (rowGet r k).isSome = true) :
    rowGet (backfillStep r c) k = rowGet r k := by
  unfold backfillStep
  by_cases hck : c.name = k
  · subst hck
    rw [h]
    simp
  · split
    · rfl
    · split
      · exact rowGet_rowSet_other r c.name k _ hck
      · split
        · exact rowGet_rowSet_other r c.name k _ hck
        · rfl

theorem backfillStep_isSome_mono (r : Row) (c : ColumnSchema) (k : String)
    (h : (rowGet r k).isSome = true) :
    (rowGet (backfillStep r c) k).isSome = true := by
  rw [backfillStep_rowGet_of_isSome r c k h]
  exact h

theorem backfillRow_rowGet_of_isSome (cols : List ColumnSchema) :
    ∀ (r : Row) (k : String), (rowGet r k).isSome = true →
      rowGet (backfillRow cols r) k = rowGet r k := by
  induction cols with
  | nil => intro r k _; rfl
  | cons c rest ih =>
      intro r k h
      show rowGet (backfillRow rest (backfillStep r c)) k = rowGet r k
      rw [ih (backfillStep r c) k (backfillStep_isSome_mono r c k h)]
      exact backfillStep_rowGet_of_isSome r c k h

theorem backfillRow_rowGet_congr (colName : String) :
    ∀ (cols : List ColumnSchema), (∀ c ∈ cols, c.name ≠ colName) →
      ∀ (r1 r2 : Row), (∀ k, k ≠ colName → rowGet r1 k = rowGet r2 k) →
        ∀ k, k ≠ colName →
          rowGet (backfillRow cols r1) k = rowGet (backfillRow cols r2) k := by
  intro cols
  induction cols with
  | nil => intro _ r1 r2 hagree k hk; exact hagree k hk
  | cons c rest ih =>
      intro hfree r1 r2 hagree k hk
      have hcfree : c.name ≠ colName := hfree c (List.mem_cons_self c rest)
      have hrestfree : ∀ x ∈ rest, x.name ≠ colName := by
        intro x hx; exact hfree x (List.mem_cons_of_mem c hx)
      show rowGet (backfillRow rest (backfillStep r1 c)) k =
        rowGet (backfillRow rest (backfillStep r2 c)) k
      apply ih hrestfree
      · intro k2 hk2
        unfold backfillStep
        have hc12 : rowGet r1 c.name = rowGet r2 c.name := hagree c.name hcfree
        rw [hc12]
        split
        · next hsome => exact hagree k2 hk2
        · split
          · by_cases hck2 : c.name = k2
            · subst hck2
              rw [rowGet_rowSet_self, rowGet_rowSet_self]
            · rw [rowGet_rowSet_other _ _ _ _ hck2,
                rowGet_rowSet_other _ _ _ _ hck2]
              exact hagree k2 hk2
          · split
            · by_cases hck2 : c.name = k2
              · subst hck2
                rw [rowGet_rowSet_self, rowGet_rowSet_self]
              · rw [rowGet_rowSet_other _ _ _ _ hck2,
                  rowGet_rowSet_other _ _ _ _ hck2]
                exact hagree k2 hk2
            · exact hagree k2 hk2
      · exact hk

/-! ### C3 -/

/-- Claim C3 counterexample: `ALTER TABLE t ADD COLUMN x INT NOT NULL`
with no DEFAULT succeeds on a one-row table and back-fills the existing
row with null in the new non-nullable column, so the claimed reachable
state invariant fails right after a public operation. -/
theorem c3_counterexample :
    nonNullB { id := "t", name := "t",
               columns := [{ id := "c0", name := "id", type := "INT",
                             nullable := false, isPrimaryKey := true }],
               rows := [[("id", vInt 1)]] } = true ∧
    alterAddColumn
      { id := "t", name := "t",
        columns := [{ id := "c0", name := "id", type := "INT",
                      nullable := false, isPrimaryKey := true }],
        rows := [[("id", vInt 1)]] }
      "x" "INT" none false false none =
      .ok { id := "t", name := "t",
            columns := [{ id := "c0", name := "id", type := "INT",
                          nullable := false, isPrimaryKey := true },
                        { id := "t_x", name := "x", type := "INT",
                          nullable := false }],
            rows := [[("id", vInt 1), ("x", vNull)]] } ∧
    nonNullB { id := "t", name := "t",
               columns := [{ id := "c0", name := "id", type := "INT",
                             nullable := false, isPrimaryKey := true },
                           { id := "t_x", name := "x", type := "INT",
                             nullable := false }],
               rows := [[("id", vInt 1), ("x", vNull)]] } = false :=
  ⟨by decide, by rfl, by decide⟩

/-- Claim C3, amended: ALTER TABLE ADD COLUMN back-fills every pre-existing
row with the new column's default value, and the non-null invariant is
preserved exactly when the added column is nullable or carries a non-null
default; a NOT NULL column added **without** a default back-fills null and
breaks the invariant (see the counterexample). -/
theorem c3_amended (t : TableSchema) (colName colType : String)
    (lenOpt : Option Nat) (nullable isPK : Bool) (defaultV : Option Value)
    (hfresh : t.columns.any (fun c => c.name == colName) = false)
    (hinv : nonNullB t = true)
    (hdef : nullable = true ∨ ∃ v, defaultV = some v ∧ valIsNull v = false) :
    ∃ t2, alterAddColumn t colName colType lenOpt nullable isPK defaultV = .ok t2 ∧
      t2.rows = t.rows.map (fun r => rowSet r colName (defaultV.getD vNull)) ∧
      nonNullB t2 = true := by
  have hfree : ∀ c ∈ t.columns, c.name ≠ colName := by
    intro c hc
    have := List.any_eq_false.mp hfresh c hc
    simpa using this
  refine ⟨_, by rw [alterAddColumn, if_neg (by simp [hfresh])], rfl, ?_⟩
  set dflt := defaultV.getD vNull with hdflt
  set newCol : ColumnSchema :=
    { id := t.name ++ "_" ++ colName, name := colName, type := colType,
      length := lenOpt, nullable := nullable, isPrimaryKey := isPK,
      defaultValue := defaultV } with hnewCol
  simp only [nonNullB, List.all_eq_true]
  intro r2 hr2
  simp only [List.mem_map] at hr2
  obtain ⟨r, hr, hr2eq⟩ := hr2
  intro c hc
  -- the back-fill over the extended column list equals the back-fill over
  -- the original columns: the new column is already present in the row
  have hpresent : rowGet (rowSet r colName dflt) colName = some dflt :=
    rowGet_rowSet_self r colName dflt
  have hbfSame : backfillRow (t.columns ++ [newCol]) (rowSet r colName dflt) =
      backfillRow t.columns (rowSet r colName dflt) := by
    show List.foldl backfillStep _ (t.columns ++ [newCol]) = _
    rw [List.foldl_append]
    show backfillStep (backfillRow t.columns (rowSet r colName dflt)) newCol = _
    unfold backfillStep
    have : rowGet (backfillRow t.columns (rowSet r colName dflt)) newCol.name =
        some dflt := by
      show rowGet (backfillRow t.columns (rowSet r colName dflt)) colName = _
      rw [backfillRow_rowGet_of_isSome t.columns (rowSet r colName dflt) colName
        (by rw [hpresent]; rfl)]
      exact hpresent
    rw [this]
    simp
  subst hr2eq
  rw [hbfSame]
  rcases List.mem_append.mp hc with hcold | hcnew
  · -- an original column, untouched by the new assignment
    have hcfree : c.name ≠ colName := hfree c hcold
    have hagree : ∀ k, k ≠ colName →
        rowGet (rowSet r colName dflt) k = rowGet r k := by
      intro k hk
      exact rowGet_rowSet_other r colName k dflt (fun he => hk he.symm)
    have hsame : rowGet (backfillRow t.columns (rowSet r colName dflt)) c.name =
        rowGet (backfillRow t.columns r) c.name :=
      backfillRow_rowGet_congr colName t.columns hfree
        (rowSet r colName dflt) r hagree c.name hcfree
    simp only [nonNullB, List.all_eq_true] at hinv
    have := hinv r hr c hcold
    simpa [rowGetD, hsame] using this
  · -- the added column: value is the back-filled default
    have hcn : c = newCol := by simpa using hcnew
    subst hcn
    show (newCol.nullable ||
      !valIsNull (rowGetD (backfillRow t.columns (rowSet r colName dflt))
        newCol.name)) = true
    rcases hdef with hn | ⟨v, hv, hvnn⟩
    · simp [hnewCol, hn]
    · have hget : rowGet (backfillRow t.columns (rowSet r colName dflt))
          newCol.name = some dflt := by
        show rowGet (backfillRow t.columns (rowSet r colName dflt)) colName = _
        rw [backfillRow_rowGet_of_isSome t.columns (rowSet r colName dflt) colName
          (by rw [hpresent]; rfl)]
        exact hpresent
      have hdv : dflt = v := by rw [hdflt, hv]; rfl
      rw [hdv] at hget
      simp [rowGetD, hget, hdv, hvnn]

/-- Witness for `c3_amended`: adding a NOT NULL BOOLEAN column with
default TRUE to a one-row table keeps the non-null invariant. -/
theorem c3_amended_witness :
    ∃ t2, alterAddColumn
      { id := "t", name := "t",
        columns := [{ id := "c0", name := "id", type := "INT",
                      nullable := false, isPrimaryKey := true }],
        rows := [[("id", vInt 1)]] }
      "active" "BOOLEAN" none false false (some (vBool true)) = .ok t2 ∧
      t2.rows = [[("id", vInt 1), ("active", vBool true)]] ∧
      nonNullB t2 = true := by
  obtain ⟨t2, h1, h2, h3⟩ := c3_amended
    { id := "t", name := "t",
      columns := [{ id := "c0", name := "id", type := "INT",
                    nullable := false, isPrimaryKey := true }],
      rows := [[("id", vInt 1)]] }
    "active" "BOOLEAN" none false false (some (vBool true))
    (by decide) (by decide) (Or.inr ⟨vBool true, rfl, by decide⟩)
  exact ⟨t2, h1, by rw [h2]; rfl, h3⟩

/-! ### C4 -/

/-- Claim C4 counterexample: for a BOOLEAN column, INSERT coerces the text
`TRUE` to the boolean true, while cell-update stores the raw string
`"TRUE"` — its coercion touches only INT/DECIMAL columns, with no boolean
mapping, no NULL handling, and no quote stripping. -/
theorem c4_counterexample :
    insertCoerceToken
      { id := "t", name := "t",
        columns := [{ id := "c0", name := "active", type := "BOOLEAN" }],
        rows := [[("active", vBool false)]] }
      "active" "TRUE" = vBool true ∧
    updateCell
      { id := "t", name := "t",
        columns := [{ id := "c0", name := "active", type := "BOOLEAN" }],
        rows := [[("active", vBool false)]] }
      0 "active" "TRUE" =
      .ok { id := "t", name := "t",
            columns := [{ id := "c0", name := "active", type := "BOOLEAN" }],
            rows := [[("active", vStr "TRUE")]] } ∧
    vStr "TRUE" ≠ vBool true :=
  ⟨by decide, by rfl, by decide⟩

/-- Claim C4, amended: for INT/DECIMAL columns and a raw value unchanged by
INSERT's whitespace/quote stripping and not the literal NULL, the two
coercions agree exactly on the values whose `int(float(·))` does not raise
`OverflowError`: cell-update then stores precisely the value INSERT's
coercion produces (both run `int(float(value))` with string fallback). On
an infinite float (value `inf` or `1e400`) they diverge: INSERT's bare
`except` falls back to the raw string while cell-update's `except
ValueError` lets the `OverflowError` escape as an unhandled 500. Cell-update
performs no constraint checking: on every in-bounds row index it either
succeeds — whatever the table's constraints or contents — or raises that
uncaught `OverflowError` before touching the row. For other column types
cell-update stores the raw text, skipping INSERT's boolean mapping, NULL
handling and quote stripping (see the counterexample). -/
theorem c4_amended (table : TableSchema) (colName val : String)
    (c : ColumnSchema)
    (hfind : table.columns.find? (fun x => x.name == colName) = some c)
    (htype : c.type = "INT" ∨ c.type = "DECIMAL")
    (hstrip : stripQuotes (pyStrip val) = val)
    (hnotnull : pyUpper val ≠ "NULL") :
    (pyIntFloat val ≠ .overflowError →
      cellCoerceValue table colName val =
        some (insertCoerceToken table colName val)) ∧
    (pyIntFloat val = .overflowError →
      insertCoerceToken table colName val = vStr val ∧
      cellCoerceValue table colName val = none) ∧
    ∀ (t : TableSchema) (i : Int) (col v : String),
      0 ≤ i → i < t.rows.length →
      (∃ t2, updateCell t i col v = .ok t2) ∨
        updateCell t i col v = .error .pyOverflowError := by
  have hnn : (pyUpper val == "NULL") = false := by simp [hnotnull]
  have hty : (c.type == "INT" || c.type == "DECIMAL") = true := by
    rcases htype with ht | ht <;> simp [ht]
  refine ⟨?_, ?_, ?_⟩
  · intro hov
    unfold insertCoerceToken cellCoerceValue
    simp only [hstrip, hnn, Bool.false_eq_true, if_false, hfind, hty, if_true]
    cases hp : pyIntFloat val with
    | ok n => rfl
    | valueError => rfl
    | overflowError => exact absurd hp hov
  · intro hov
    unfold insertCoerceToken cellCoerceValue
    simp only [hstrip, hnn, Bool.false_eq_true, if_false, hfind, hty, if_true]
    rw [hov]
    exact ⟨rfl, rfl⟩
  · intro t i col v hge hlt
    have h1 : ¬((t.rows.length : Int) ≤ i) := by omega
    have hneg : ¬(i < 0) := by omega
    have hnat : i.toNat < t.rows.length := by omega
    cases hc : cellCoerceValue t col v with
    | none =>
        refine Or.inr ?_
        unfold updateCell
        rw [if_neg h1, hc]
    | some v2 =>
        left
        rw [updateCell_coerced t i col v v2 h1 hc]
        simp only [hneg, ite_false, if_false]
        rw [List.get?_eq_get hnat]
        exact ⟨_, rfl⟩

/-- Witness for `c4_amended` at an INT column: the token `5` coerces
identically on both paths, the token `inf` splits them (INSERT stores the
string, cell-update raises), and an in-bounds cell update resolves. -/
theorem c4_amended_witness :
    cellCoerceValue
      { id := "t", name := "t",
        columns := [{ id := "c0", name := "id", type := "INT" }],
        rows := [[("id", vInt 1)]] } "id" "5" =
    some (insertCoerceToken
      { id := "t", name := "t",
        columns := [{ id := "c0", name := "id", type := "INT" }],
        rows := [[("id", vInt 1)]] } "id" "5") ∧
    (insertCoerceToken
      { id := "t", name := "t",
        columns := [{ id := "c0", name := "id", type := "INT" }],
        rows := [[("id", vInt 1)]] } "id" "inf" = vStr "inf" ∧
     cellCoerceValue
      { id := "t", name := "t",
        columns := [{ id := "c0", name := "id", type := "INT" }],
        rows := [[("id", vInt 1)]] } "id" "inf" = none) ∧
    ((∃ t2, updateCell
      { id := "t", name := "t",
        columns := [{ id := "c0", name := "id", type := "INT" }],
        rows := [[("id", vInt 1)]] } 0 "id" "7" = .ok t2) ∨
      updateCell
      { id := "t", name := "t",
        columns := [{ id := "c0", name := "id", type := "INT" }],
        rows := [[("id", vInt 1)]] } 0 "id" "7" =
        .error .pyOverflowError) := by
  have h5 := c4_amended
    { id := "t", name := "t",
      columns := [{ id := "c0", name := "id", type := "INT" }],
      rows := [[("id", vInt 1)]] }
    "id" "5" { id := "c0", name := "id", type := "INT" }
    (by rfl) (Or.inl rfl) (by decide) (by decide)
  have hinf := c4_amended
    { id := "t", name := "t",
      columns := [{ id := "c0", name := "id", type := "INT" }],
      rows := [[("id", vInt 1)]] }
    "id" "inf" { id := "c0", name := "id", type := "INT" }
    (by rfl) (Or.inl rfl) (by decide) (by decide)
  exact ⟨h5.1 (by decide), hinf.2.1 (by decide),
    h5.2.2 _ 0 "id" "7" (by decide) (by decide)⟩

/-! ### C5 -/

theorem leftJoinRows_append (right : List Row) (lc rc : String)
    (rcols : List String) :
    ∀ (a b : List Row),
      leftJoinRows (a ++ b) right lc rc rcols =
        (leftJoinRows a right lc rc rcols).bind
          (fun xs => (leftJoinRows b right lc rc rcols).map
            (fun ys => xs ++ ys)) := by
  intro a
  induction a with
  | nil =>
      intro b
      cases hb : leftJoinRows b right lc rc rcols <;>
        simp [leftJoinRows, hb]
  | cons x a ih =>
      intro b
      show leftJoinRows (x :: (a ++ b)) right lc rc rcols = _
      simp only [leftJoinRows]
      cases hx : joinMatches x lc rc right with
      | none => rfl
      | some msx =>
          rw [ih b]
          cases ha : leftJoinRows a right lc rc rcols with
          | none => rfl
          | some as =>
              cases hb : leftJoinRows b right lc rc rcols with
              | none => rfl
              | some bs => simp [List.append_assoc]

theorem innerJoinRows_append (right : List Row) (lc rc : String) :
    ∀ (a b : List Row),
      innerJoinRows (a ++ b) right lc rc =
        (innerJoinRows a right lc rc).bind
          (fun xs => (innerJoinRows b right lc rc).map
            (fun ys => xs ++ ys)) := by
  intro a
  induction a with
  | nil =>
      intro b
      cases hb : innerJoinRows b right lc rc <;>
        simp [innerJoinRows, hb]
  | cons x a ih =>
      intro b
      show innerJoinRows (x :: (a ++ b)) right lc rc = _
      simp only [innerJoinRows]
      cases hx : joinMatches x lc rc right with
      | none => rfl
      | some msx =>
          rw [ih b]
          cases ha : innerJoinRows a right lc rc with
          | none => rfl
          | some as =>
              cases hb : innerJoinRows b right lc rc with
              | none => rfl
              | some bs => simp [List.append_assoc]

/-- Claim C5 (confirmed): consider any left row `r1` whose stringified
matches against the right rows are `ms`. In the LEFT JOIN output, the rows
contributed at `r1`'s position are exactly `ms`, or exactly the single
null-filled copy of `r1` when `ms` is empty (an unmatched left row appears
exactly once, with every right-table column set to null); in the INNER
JOIN output they are exactly `ms` (an unmatched left row appears zero
times). Every matching left row thus produces one output row per match in
both join kinds. -/
theorem c5_join (l₁ l₂ right : List Row) (r1 : Row) (lc rc : String)
    (rcols : List String) (ms : List Row)
    (hm : joinMatches r1 lc rc right = some ms) :
    leftJoinRows (l₁ ++ r1 :: l₂) right lc rc rcols =
      (leftJoinRows l₁ right lc rc rcols).bind
        (fun a => (leftJoinRows l₂ right lc rc rcols).map
          (fun b => a ++ ((if ms.isEmpty then [nullFillRow r1 rcols] else ms)
            ++ b))) ∧
    innerJoinRows (l₁ ++ r1 :: l₂) right lc rc =
      (innerJoinRows l₁ right lc rc).bind
        (fun a => (innerJoinRows l₂ right lc rc).map
          (fun b => a ++ (ms ++ b))) := by
  constructor
  · rw [leftJoinRows_append]
    have hsing : leftJoinRows (r1 :: l₂) right lc rc rcols =
        (leftJoinRows l₂ right lc rc rcols).map
          (fun b => (if ms.isEmpty then [nullFillRow r1 rcols] else ms) ++ b) := by
      simp only [leftJoinRows, hm, Option.some_bind]
      cases hb : leftJoinRows l₂ right lc rc rcols <;> simp
    rw [hsing]
    cases ha : leftJoinRows l₁ right lc rc rcols with
    | none => simp
    | some as =>
        cases hb : leftJoinRows l₂ right lc rc rcols with
        | none => simp
        | some bs => simp
  · rw [innerJoinRows_append]
    have hsing : innerJoinRows (r1 :: l₂) right lc rc =
        (innerJoinRows l₂ right lc rc).map (fun b => ms ++ b) := by
      simp only [innerJoinRows, hm, Option.some_bind]
      cases hb : innerJoinRows l₂ right lc rc <;> simp
    rw [hsing]
    cases ha : innerJoinRows l₁ right lc rc with
    | none => simp
    | some as =>
        cases hb : innerJoinRows l₂ right lc rc with
        | none => simp
        | some bs => simp

/-- Witness for `c5_join`: an unmatched left row `{x: 3}` against one right
row `{y: 1, z: "m"}` appears once null-filled in the LEFT JOIN and not at
all in the INNER JOIN. -/
theorem c5_join_witness :
    leftJoinRows ([[("x", vInt 1)]] ++ [("x", vInt 3)] :: [])
      [[("y", vInt 1), ("z", vStr "m")]] "x" "y" ["y", "z"] =
      some [[("x", vInt 1), ("y", vInt 1), ("z", vStr "m")],
            [("x", vInt 3), ("y", vNull), ("z", vNull)]] ∧
    innerJoinRows ([[("x", vInt 1)]] ++ [("x", vInt 3)] :: [])
      [[("y", vInt 1), ("z", vStr "m")]] "x" "y" =
      some [[("x", vInt 1), ("y", vInt 1), ("z", vStr "m")]] := by
  have h := c5_join [[("x", vInt 1)]] [] [[("y", vInt 1), ("z", vStr "m")]]
    [("x", vInt 3)] "x" "y" ["y", "z"] [] (by decide)
  refine ⟨?_, ?_⟩
  · rw [h.1]; decide
  · rw [h.2]; decide

/-! ### C6 -/

/-- Claim C6 (code bug): after inserting `{id: 2, name: "b"}` into a table
already holding `{id: 1, name: "a"}`, the statement
`SELECT * FROM t WHERE id = 2` returns **both** rows: the WHERE regex
`WHERE\s+(.+?)(?:\s+(ORDER|GROUP|LIMIT|$))` demands whitespace after the
clause, statements are stripped, so a statement ending at its WHERE clause
silently drops the filter. Appending `LIMIT 5` makes the very same
condition filter to the one matching row, as the claim (and the repo's own
tests, which assert filtered row counts) expect. -/
theorem c6_code_bug :
    (insertRows
      [{ id := "t", name := "t",
         columns := [{ id := "c0", name := "id", type := "INT",
                       nullable := false, isPrimaryKey := true },
                     { id := "c1", name := "name", type := "VARCHAR",
                       length := some 50, nullable := false }],
         rows := [[("id", vInt 1), ("name", vStr "a")]] }]
      { id := "t", name := "t",
        columns := [{ id := "c0", name := "id", type := "INT",
                      nullable := false, isPrimaryKey := true },
                    { id := "c1", name := "name", type := "VARCHAR",
                      length := some 50, nullable := false }],
        rows := [[("id", vInt 1), ("name", vStr "a")]] }
      ["id", "name"] [["2", "'b'"]]).2.2 = none ∧
    handleSelect
      [{ id := "t", name := "t",
         columns := [{ id := "c0", name := "id", type := "INT",
                       nullable := false, isPrimaryKey := true },
                     { id := "c1", name := "name", type := "VARCHAR",
                       length := some 50, nullable := false }],
         rows := [[("id", vInt 1), ("name", vStr "a")],
                  [("id", vInt 2), ("name", vStr "b")]] }]
      none "" "SELECT * FROM t WHERE id = 2" =
      .ok ([[("id", vInt 1), ("name", vStr "a")],
            [("id", vInt 2), ("name", vStr "b")]], ["id", "name"]) ∧
    handleSelect
      [{ id := "t", name := "t",
         columns := [{ id := "c0", name := "id", type := "INT",
                       nullable := false, isPrimaryKey := true },
                     { id := "c1", name := "name", type := "VARCHAR",
                       length := some 50, nullable := false }],
         rows := [[("id", vInt 1), ("name", vStr "a")],
                  [("id", vInt 2), ("name", vStr "b")]] }]
      none "" "SELECT * FROM t WHERE id = 2 LIMIT 5" =
      .ok ([[("id", vInt 2), ("name", vStr "b")]], ["id", "name"]) :=
  ⟨by decide, except_ok_of_toOption _ _ (by decide),
    except_ok_of_toOption _ _ (by decide)⟩

/-! ### C7 -/

theorem groupBy_fold_spec (groupCol : String) :
    ∀ (data : List Row) (gs : List (Value × List Row)),
      (∀ p ∈ gs, p.2 ≠ []) →
      ((data.foldl (fun gs r => addToGroups gs (rowGetD r groupCol) r)
          gs).filterMap (fun p => p.2.head?)) =
        gs.filterMap (fun p => p.2.head?) ++
          groupByFirstRowSpec groupCol data (gs.map (fun p => p.1)) := by
  intro data
  induction data with
  | nil => intro gs _; simp [groupByFirstRowSpec]
  | cons r rest ih =>
      intro gs hne
      simp only [List.foldl_cons, groupByFirstRowSpec]
      by_cases hmem : gs.any (fun p => pyEq p.1 (rowGetD r groupCol)) = true
      · have hseen : ((gs.map (fun p => p.1)).any
            (fun s => pyEq s (rowGetD r groupCol))) = true := by
          rw [List.any_eq_true] at hmem ⊢
          obtain ⟨p, hp, hpe⟩ := hmem
          exact ⟨p.1, List.mem_map_of_mem _ hp, hpe⟩
        rw [if_pos hseen]
        have hadd : addToGroups gs (rowGetD r groupCol) r =
            gs.map (fun p => if pyEq p.1 (rowGetD r groupCol) then
              (p.1, p.2 ++ [r]) else p) := by
          unfold addToGroups
          rw [if_pos hmem]
        rw [hadd]
        have hne2 : ∀ p ∈ gs.map (fun p =>
            if pyEq p.1 (rowGetD r groupCol) then (p.1, p.2 ++ [r]) else p),
            p.2 ≠ [] := by
          intro p hp
          simp only [List.mem_map] at hp
          obtain ⟨q, hq, hqe⟩ := hp
          by_cases hq2 : pyEq q.1 (rowGetD r groupCol) = true
          · rw [if_pos hq2] at hqe
            subst hqe
            simp
          · rw [if_neg hq2] at hqe
            subst hqe
            exact hne q hq
        rw [ih _ hne2]
        have h1 : (gs.map (fun p => if pyEq p.1 (rowGetD r groupCol) then
            (p.1, p.2 ++ [r]) else p)).filterMap (fun p => p.2.head?) =
            gs.filterMap (fun p => p.2.head?) := by
          rw [List.filterMap_map]
          apply List.filterMap_congr
          intro p hp
          by_cases hq2 : pyEq p.1 (rowGetD r groupCol) = true
          · simp only [Function.comp_apply, if_pos hq2]
            have hpn := hne p hp
            cases hh : p.2 with
            | nil => exact absurd hh hpn
            | cons a as => simp
          · simp [Function.comp_apply, hq2]
        have h2 : (gs.map (fun p => if pyEq p.1 (rowGetD r groupCol) then
            (p.1, p.2 ++ [r]) else p)).map (fun p => p.1) =
            gs.map (fun p => p.1) := by
          rw [List.map_map]
          apply List.map_congr_left
          intro p hp
          by_cases hq2 : pyEq p.1 (rowGetD r groupCol) = true
          · simp [Function.comp_apply, hq2]
          · simp [Function.comp_apply, hq2]
        rw [h1, h2]
      · have hseen : ((gs.map (fun p => p.1)).any
            (fun s => pyEq s (rowGetD r groupCol))) = false := by
          rw [List.any_eq_false]
          intro k hk
          simp only [List.mem_map] at hk
          obtain ⟨p, hp, hpe⟩ := hk
          subst hpe
          intro hcontra
          exact hmem (List.any_eq_true.mpr ⟨p, hp, hcontra⟩)
        rw [if_neg (by simp [hseen])]
        have hadd : addToGroups gs (rowGetD r groupCol) r =
            gs ++ [(rowGetD r groupCol, [r])] := by
          unfold addToGroups
          rw [if_neg (by simp [hmem])]
        rw [hadd]
        have hne2 : ∀ p ∈ gs ++ [(rowGetD r groupCol, [r])], p.2 ≠ [] := by
          intro p hp
          rcases List.mem_append.mp hp with h1 | h2
          · exact hne p h1
          · simp only [List.mem_singleton] at h2
            subst h2
            simp
        rw [ih _ hne2]
        simp only [List.filterMap_append, List.map_append]
        simp [List.append_assoc]

/-- Claim C7 (confirmed): `_handle_group_by` partitions the rows by Python
equality of the grouped column's value and returns exactly the first row
(in input order) carrying each distinct key, one row per distinct key in
order of first appearance, with no per-group aggregation —
`groupByFirstRowSpec` states the behaviour in exactly those words. -/
theorem c7_group_by (data : List Row) (groupCol : String) :
    handleGroupBy data groupCol = groupByFirstRowSpec groupCol data [] := by
  unfold handleGroupBy
  by_cases hd : data.isEmpty = true
  · rw [if_pos hd]
    cases data with
    | nil => rfl
    | cons r rest => simp at hd
  · rw [if_neg (by simp [hd])]
    have := groupBy_fold_spec groupCol data [] (by intro p hp; simp at hp)
    simpa using this

/-! ### C8 -/

/-- Claim C8 (confirmed): for every table `t` (any columns, any rows),
`SELECT COUNT(*) FROM t` succeeds and returns exactly one row mapping the
label `COUNT(*)` to the number of rows — on an empty table that is the one
row `{COUNT(*): 0}`, never an empty row list. -/
theorem c8_count_star (cols : List ColumnSchema) (rows : List Row)
    (curName : Option String) (nowStr : String) :
    handleSelect [{ id := "t", name := "t", columns := cols, rows := rows }]
      curName nowStr "SELECT COUNT(*) FROM t" =
      .ok ([[("COUNT(*)", vInt rows.length)]], ["COUNT(*)"]) := by
  have hfun : handleSelectFunctions curName nowStr "SELECT COUNT(*) FROM t" = none := by
    unfold handleSelectFunctions
    rw [if_pos (show strContains (pyUpper "SELECT COUNT(*) FROM t") "FROM" = true
      by decide)]
  have hfrom : fromExtract "SELECT COUNT(*) FROM t" = some "t" := by decide
  have hjoin : joinExtract "SELECT COUNT(*) FROM t" = none := by decide
  have hwhere : whereExtract "SELECT COUNT(*) FROM t" = none := by decide
  have horder : orderExtract "SELECT COUNT(*) FROM t" = none := by decide
  have hsel : selectClauseExtract "SELECT COUNT(*) FROM t" = some "COUNT(*)" := by
    decide
  have hgroup : groupExtract "SELECT COUNT(*) FROM t" = none := by decide
  have hhaving : havingExtract "SELECT COUNT(*) FROM t" = none := by decide
  have hlimit : limitExtract "SELECT COUNT(*) FROM t" = none := by decide
  have hstrip : pyStrip "COUNT(*)" = "COUNT(*)" := by decide
  have hagg : ∀ (data : List Row) (columns : List String),
      handleAggregation data "COUNT(*)" columns =
        ([[("COUNT(*)", vInt data.length)]], ["COUNT(*)"]) := by
    intro data columns
    unfold handleAggregation
    rw [if_neg (show ¬(strContains "COUNT(*)" "*" &&
      strContains (pyUpper "COUNT(*)") "FROM") = true by decide)]
    rw [if_neg (show ¬(!(["COUNT", "SUM", "AVG", "MIN", "MAX"].any
      (fun f => strContains (pyUpper "COUNT(*)") f))) = true by decide)]
    rw [if_pos (show hasCountStar "COUNT(*)" = true by decide)]
    rw [show findAggCalls "SUM" "COUNT(*)" = [] by decide]
    rw [show findAggCalls "AVG" "COUNT(*)" = [] by decide]
    rfl
  unfold handleSelect
  rw [hfun, hfrom]
  simp only [List.find?]
  rw [show (("t" : String) == "t") = true by decide]
  simp only [hjoin, hwhere, horder, hsel, hgroup, hhaving, hlimit, hstrip]
  simp only [Bind.bind, Except.bind, pure, Except.pure]
  rw [hagg]
  simp only [scanRows, List.length_map]
  rfl

/-! ### C9 -/

theorem filterRows_eq_filter (colName op val : String) :
    ∀ (data : List Row),
      filterRows data colName op val = data.filter (condKeep colName op val) := by
  intro data
  induction data with
  | nil => rfl
  | cons row rest ih =>
      unfold filterRows
      rw [List.filter_cons]
      by_cases h : condKeep colName op val row = true
      · rw [h, if_pos rfl, if_pos rfl, ih]
      · rw [Bool.not_eq_true] at h
        rw [h, ih]

/-- The atomic condition `column = NULL` keeps exactly the rows whose
non-null stored value stringifies to the text `NULL`. -/
theorem condKeep_eq_null (colName : String) (row : Row) :
    condKeep colName "=" "NULL" row =
      (match rowGet row (lastDot colName) with
        | some v => !valIsNull v && (pyStr v == "NULL")
        | none => false) := by
  unfold condKeep
  cases hg : rowGet row (lastDot colName) with
  | none => rfl
  | some v =>
      cases hvn : valIsNull v with
      | true => simp [hvn]
      | false =>
          simp only [hvn, Bool.false_eq_true, if_false, Bool.not_false,
            Bool.true_and]
          rw [if_pos (by decide)]

/-- Claim C9, amended: for every atomic condition parsed from the text
`column operator value`, a row whose value at the named column is null or
missing is excluded for **every** operator; but `column = NULL` does not
match "no row at all" — it keeps exactly the rows whose stored value
stringifies to the four-character text `NULL` (for example a stored string
`"NULL"`, reachable through cell-update or an initial table payload),
while still excluding every truly null value. -/
theorem c9_amended :
    (∀ (data : List Row) (cond colName op val : String) (row : Row),
        parseCondition cond = some (colName, op, val) →
        (rowGet row (lastDot colName) = none ∨
          rowGet row (lastDot colName) = some vNull) →
        row ∉ filterByCondition data cond) ∧
    (∀ (data : List Row) (cond colName : String) (row : Row),
        parseCondition cond = some (colName, "=", "NULL") →
        (row ∈ filterByCondition data cond ↔ row ∈ data ∧
          ∃ v, rowGet row (lastDot colName) = some v ∧
            valIsNull v = false ∧ pyStr v = "NULL")) := by
  constructor
  · intro data cond colName op val row hparse hnull
    rw [show filterByCondition data cond = filterRows data colName op val by
      unfold filterByCondition
      rw [hparse]]
    rw [filterRows_eq_filter]
    intro hmem
    have hkeep := List.of_mem_filter hmem
    unfold condKeep at hkeep
    rcases hnull with hn | hn <;> rw [hn] at hkeep <;> simp [valIsNull] at hkeep
  · intro data cond colName row hparse
    rw [show filterByCondition data cond = filterRows data colName "=" "NULL" by
      unfold filterByCondition
      rw [hparse]]
    rw [filterRows_eq_filter, List.mem_filter]
    constructor
    · rintro ⟨hmem, hkeep⟩
      refine ⟨hmem, ?_⟩
      rw [condKeep_eq_null] at hkeep
      cases hg : rowGet row (lastDot colName) with
      | none => rw [hg] at hkeep; simp at hkeep
      | some v =>
          rw [hg] at hkeep
          simp only [Bool.and_eq_true, Bool.not_eq_true', beq_iff_eq] at hkeep
          exact ⟨v, rfl, hkeep.1, hkeep.2⟩
    · rintro ⟨hmem, v, hv, hvn, hvs⟩
      refine ⟨hmem, ?_⟩
      rw [condKeep_eq_null, hv]
      simp [hvn, hvs]

/-- Witness for `c9_amended`: a null-valued row is excluded by `c > 1`,
and `c = NULL` keeps exactly the row storing the text `"NULL"`. -/
theorem c9_amended_witness :
    ([[("c", vNull)]] : List Row).head? = some [("c", vNull)] ∧
    [("c", vNull)] ∉ filterByCondition [[("c", vNull)]] "c > 1" ∧
    ([("c", vStr "NULL")] ∈ filterByCondition
      [[("c", vStr "NULL")], [("c", vNull)]] "c = NULL" ↔
      [("c", vStr "NULL")] ∈ ([[("c", vStr "NULL")], [("c", vNull)]] : List Row) ∧
      ∃ v, rowGet [("c", vStr "NULL")] (lastDot "c") = some v ∧
        valIsNull v = false ∧ pyStr v = "NULL") := by
  refine ⟨rfl, ?_, ?_⟩
  · exact c9_amended.1 [[("c", vNull)]] "c > 1" "c" ">" "1" [("c", vNull)]
      (by decide) (Or.inr (by decide))
  · exact c9_amended.2 [[("c", vStr "NULL")], [("c", vNull)]] "c = NULL" "c"
      [("c", vStr "NULL")] (by decide)

/-- Claim C9 counterexample: the condition `c = NULL` does match a row —
one whose stored value is the string `"NULL"` — so it is not true that it
matches no row at all. -/
theorem c9_counterexample :
    filterByCondition [[("c", vStr "NULL")]] "c = NULL" =
      [[("c", vStr "NULL")]] := by
  decide

/-! ### C10 -/

/-- Claim C10 counterexample: on a one-row table, cell-update at row index
`-2` is not accepted — Python list assignment raises `IndexError` (an
unhandled 500), refuting "accepts every negative row-index without
error". -/
theorem c10_counterexample :
    updateCell
      { id := "t", name := "t",
        columns := [{ id := "c0", name := "id", type := "INT",
                      nullable := false, isPrimaryKey := true }],
        rows := [[("id", vInt 1)]] }
      (-2) "id" "7" = .error .pyIndexError := by
  rfl

/-- Claim C10, amended: cell-update rejects a row index at or beyond the
row count with the out-of-bounds failure; for any smaller index the value
coercion runs next, and an uncaught `OverflowError` (an infinite float on
an INT/DECIMAL column) escapes before any assignment; otherwise a negative
row index is accepted only down to `-len(rows)`, updating the row counted
from the end (`-1` is the last row), while a negative index below
`-len(rows)` raises `IndexError` instead of being accepted. -/
theorem c10_amended (t : TableSchema) (i : Int) (col v : String) :
    ((t.rows.length : Int) ≤ i →
      updateCell t i col v = .error .rowIndexOutOfBounds) ∧
    (i < (t.rows.length : Int) → cellCoerceValue t col v = none →
      updateCell t i col v = .error .pyOverflowError) ∧
    (∀ v2, cellCoerceValue t col v = some v2 →
      -(t.rows.length : Int) ≤ i → i < 0 →
      ∃ r, t.rows.get? ((t.rows.length : Int) + i).toNat = some r ∧
        updateCell t i col v = .ok { t with
          rows := t.rows.set ((t.rows.length : Int) + i).toNat
            (rowSet r col v2) }) ∧
    (i < -(t.rows.length : Int) → cellCoerceValue t col v ≠ none →
      updateCell t i col v = .error .pyIndexError) := by
  refine ⟨?_, ?_, ?_, ?_⟩
  · intro hge
    unfold updateCell
    rw [if_pos hge]
  · intro hlt hcnone
    have h1 : ¬((t.rows.length : Int) ≤ i) := by omega
    unfold updateCell
    rw [if_neg h1, hcnone]
  · intro v2 hc hlo hneg
    have h1 : ¬((t.rows.length : Int) ≤ i) := by omega
    have hnat : ((t.rows.length : Int) + i).toNat < t.rows.length := by omega
    rw [updateCell_coerced t i col v v2 h1 hc]
    simp only [hneg, ite_true, if_true]
    rw [if_neg (by omega)]
    rw [List.get?_eq_get hnat]
    exact ⟨_, rfl, rfl⟩
  · intro hlt hcsome
    have h1 : ¬((t.rows.length : Int) ≤ i) := by omega
    have hneg : i < 0 := by omega
    cases hcc : cellCoerceValue t col v with
    | none => exact absurd hcc hcsome
    | some v2 =>
        rw [updateCell_coerced t i col v v2 h1 hcc]
        simp only [hneg, ite_true, if_true]
        rw [if_pos (by omega)]

/-- Witness for `c10_amended` on a two-row table: index 2 is rejected
out-of-bounds, value `inf` at index 0 raises the uncaught `OverflowError`,
index `-1` updates the last row, index `-3` raises `IndexError`. -/
theorem c10_amended_witness :
    updateCell
      { id := "t", name := "t",
        columns := [{ id := "c0", name := "id", type := "INT",
                      nullable := false, isPrimaryKey := true }],
        rows := [[("id", vInt 1)], [("id", vInt 2)]] }
      2 "id" "7" = .error .rowIndexOutOfBounds ∧
    updateCell
      { id := "t", name := "t",
        columns := [{ id := "c0", name := "id", type := "INT",
                      nullable := false, isPrimaryKey := true }],
        rows := [[("id", vInt 1)], [("id", vInt 2)]] }
      0 "id" "inf" = .error .pyOverflowError ∧
    (∃ r, ([[("id", vInt 1)], [("id", vInt 2)]] : List Row).get? 1 = some r ∧
      updateCell
        { id := "t", name := "t",
          columns := [{ id := "c0", name := "id", type := "INT",
                        nullable := false, isPrimaryKey := true }],
          rows := [[("id", vInt 1)], [("id", vInt 2)]] }
        (-1) "id" "7" =
        .ok { id := "t", name := "t",
              columns := [{ id := "c0", name := "id", type := "INT",
                            nullable := false, isPrimaryKey := true }],
              rows := ([[("id", vInt 1)], [("id", vInt 2)]] : List Row).set 1
                (rowSet r "id" (vInt 7)) }) ∧
    updateCell
      { id := "t", name := "t",
        columns := [{ id := "c0", name := "id", type := "INT",
                      nullable := false, isPrimaryKey := true }],
        rows := [[("id", vInt 1)], [("id", vInt 2)]] }
      (-3) "id" "7" = .error .pyIndexError := by
  have h := c10_amended
    { id := "t", name := "t",
      columns := [{ id := "c0", name := "id", type := "INT",
                    nullable := false, isPrimaryKey := true }],
      rows := [[("id", vInt 1)], [("id", vInt 2)]] } 2 "id" "7"
  have hovf := c10_amended
    { id := "t", name := "t",
      columns := [{ id := "c0", name := "id", type := "INT",
                    nullable := false, isPrimaryKey := true }],
      rows := [[("id", vInt 1)], [("id", vInt 2)]] } 0 "id" "inf"
  have h2 := c10_amended
    { id := "t", name := "t",
      columns := [{ id := "c0", name := "id", type := "INT",
                    nullable := false, isPrimaryKey := true }],
      rows := [[("id", vInt 1)], [("id", vInt 2)]] } (-1) "id" "7"
  have h3 := c10_amended
    { id := "t", name := "t",
      columns := [{ id := "c0", name := "id", type := "INT",
                    nullable := false, isPrimaryKey := true }],
      rows := [[("id", vInt 1)], [("id", vInt 2)]] } (-3) "id" "7"
  refine ⟨h.1 (by decide), hovf.2.1 (by decide) (by decide), ?_,
    h3.2.2.2 (by decide) (by decide)⟩
  have := h2.2.2.1 (vInt 7) (by decide) (by decide) (by decide)
  simpa using this

end RDBMS
